import Mathlib

/-!
# chawk: the authenticated request dispatcher

A shallow embedding of `auth.go` and of the token handling of `client.go`
(`saveToken`, `requestNewToken`, `sendRequest`), followed by the properties
proved about them.

Conventions of the embedding.

* A Go `string` / `[]byte` is a sequence of bytes; it is represented by the Lean
  `String` whose characters are those bytes, so `len` is `String.length`,
  `+` is `++` and reading at most `n` bytes keeps the first `n` characters.
* A `time.Time` is a point on one time line, an `Int` count of nanoseconds;
  `Add` is `+` and `After` is `>`. A `time.Duration` is an `int64` count of
  nanoseconds, arithmetic on it wraps modulo `2^64`.
* A `*Token` is an `Option Token`, `nil` being `none`.
* Everything the code asks of the outside world (the clock, the HTTP
  transport, the JSON codec, the file system) is a field of `World`; what the
  code does to the outside world is recorded, in order, as a list of `Effect`s.
* The read/write lock `mu` has no counterpart: one call runs at a time.
-/

namespace Chawk

/-! ## Go errors -/

/-- A Go `error` value. `new msg` is `errors.New(msg)`, a `fmt.Errorf` without
`%w`, or an error handed over by the standard library; `wrap pfx inner` is
`fmt.Errorf(pfx + "%w", inner)`. -/
inductive GoError where
  | new (msg : String)
  | wrap (pfx : String) (inner : GoError)
deriving DecidableEq, Repr

namespace GoError

/-- The method `Error()`: the message of an error. -/
def Error : GoError → String
  | new msg => msg
  | wrap pfx inner => pfx ++ inner.Error

/-- The function `errors.Unwrap`. -/
def Unwrap : GoError → Option GoError
  | new _ => none
  | wrap _ inner => some inner

/-- The function `errors.Is(err, target)`: `target` is met on the `Unwrap` chain
of `err`. -/
def Is (err target : GoError) : Bool :=
  match err with
  | new msg => decide (new msg = target)
  | wrap pfx inner => decide (wrap pfx inner = target) || Is inner target

end GoError

/-! ## auth.go -/

/-- The struct `Token` of `auth.go`. `ExpiresIn` is an `int64`, `Expiry` an
instant in nanoseconds. -/
structure Token where
  AccessToken : String
  TokenType : String
  RefreshToken : String
  ExpiresIn : Int
  Expiry : Int
deriving DecidableEq, Repr

/-- The constant `time.Second`, in nanoseconds. -/
def second : Int := 1000000000

/-- The constant `time.Minute`, in nanoseconds. -/
def minute : Int := 60 * second

/-- The method `(*Token).IsExpired`, with `now` the value of `time.Now()`:
`t == nil || t.AccessToken == ""` gives `true`, otherwise the answer is
`now.Add(2 * time.Minute).After(t.Expiry)`. -/
def IsExpired (t : Option Token) (now : Int) : Bool :=
  match t with
  | none => true
  | some tok =>
    if tok.AccessToken = "" then true
    else decide (now + 2 * minute > tok.Expiry)

/-! ## The outside world -/

/-- An `*http.Request` as far as the code fills it in: method, URL, header and
body (`none` for a `nil` reader). -/
structure Request where
  Method : String
  URL : String
  Header : List (String × String)
  Body : Option String
deriving DecidableEq, Repr

/-- An `*http.Response` as far as the code reads it: status code and body. -/
structure Response where
  StatusCode : Int
  Body : String
deriving DecidableEq, Repr

/-- The request that `http.NewRequestWithContext(ctx, method, url, body)`
returns when it succeeds: an empty header, and `GET` for an empty method. -/
def NewRequest (method url : String) (body : Option String) : Request :=
  { Method := if method = "" then "GET" else method, URL := url, Header := [], Body := body }

/-- The call `req.Header.Set(key, value)`: the value held for `key` is replaced. -/
def Request.setHeader (req : Request) (key value : String) : Request :=
  { req with Header := req.Header.filter (fun kv => kv.1 != key) ++ [(key, value)] }

/-- The value of `req.Header.Get(key)`, `none` when the key is not set. -/
def Request.getHeader (req : Request) (key : String) : Option String :=
  (req.Header.find? (fun kv => kv.1 == key)).map Prod.snd

/-- What the code observes of its environment during one call. The three clock
readings are the values of `time.Now()` at the expiry check of `sendRequest`, at
the expiry check of `requestNewToken` and at the computation of the new expiry.
`tokenEndpoint` is `endpoints.GetToken()` and `maxResponseSize` is
`MAX_RESPONSE_SIZE`; neither is declared in the files at hand. The remaining
fields are the standard library: `newRequest` is the error of
`http.NewRequestWithContext` (`none` for success), `httpDo` is
`c.httpClient.Do`, `decodeToken` is `json.NewDecoder(body).Decode` into an empty
`Token`, `base64` is `base64.StdEncoding.EncodeToString`, `filepathDir` is
`filepath.Dir`, `mkdirAll` and `writeFile` are the errors of `os.MkdirAll` and
`os.WriteFile` (`none` for success) and `marshalToken` is `json.Marshal`. -/
structure World where
  nowSend : Int
  nowCheck : Int
  nowIssue : Int
  tokenEndpoint : String
  maxResponseSize : Nat
  newRequest : String → String → Option GoError
  httpDo : Request → Except GoError Response
  decodeToken : String → Except GoError Token
  base64 : String → String
  filepathDir : String → String
  mkdirAll : String → Option GoError
  marshalToken : Token → Except GoError String
  writeFile : String → String → Option GoError

/-- The call `req.SetBasicAuth(username, password)`. -/
def Request.SetBasicAuth (req : Request) (w : World) (username password : String) : Request :=
  req.setHeader "Authorization" ("Basic " ++ w.base64 (username ++ ":" ++ password))

/-- What the code does to its environment: a request handed to the transport,
a directory creation, a file write (each with the permission bits passed) and a
line printed on standard output. Attempts are recorded whether or not they
succeed. -/
inductive Effect where
  | httpDo (req : Request)
  | mkdirAll (dir : String) (perm : Nat)
  | writeFile (path data : String) (perm : Nat)
  | printf (text : String)
deriving DecidableEq, Repr

/-- The bytes `io.ReadAll(io.LimitReader(body, n))` yields: the first `n` bytes of
the body. -/
def readAllLimited (n : Nat) (body : String) : String :=
  ⟨body.data.take n⟩

/-- The value of an `int64` computation whose mathematical result is `x`. -/
def wrapInt64 (x : Int) : Int :=
  (x + 2 ^ 63) % 2 ^ 64 - 2 ^ 63

/-! ## client.go -/

/-- The struct `BlackboardClient` of `client.go`, without the lock, the HTTP
client (see `World.httpDo`) and the sub services. -/
structure BlackboardClient where
  clientID : String
  clientSecret : String
  BaseURL : String
  token : Option Token
  tokenFile : String
deriving DecidableEq, Repr

/-- The result of running a method of the client: the value returned, the client
afterwards and the effects performed, in order. -/
structure Run (α : Type) where
  ret : α
  client : BlackboardClient
  trace : List Effect

/-- How a Go function call ends: it returns a value or it panics. -/
inductive Outcome (α : Type) where
  | ret (a : α)
  | panic (text : String)
deriving DecidableEq, Repr

/-- The method `(*BlackboardClient).saveToken`. The returned value is the error,
`none` for `nil`. -/
def saveToken (w : World) (c : BlackboardClient) (t : Token) : Run (Option GoError) :=
  let dir := w.filepathDir c.tokenFile
  match w.mkdirAll dir with
  | some err =>
    ⟨some (.wrap "failed to create token directory: " err), c, [.mkdirAll dir 0o700]⟩
  | none =>
    match w.marshalToken t with
    | .error err =>
      ⟨some (.wrap "failed to marshal token: " err), c, [.mkdirAll dir 0o700]⟩
    | .ok data =>
      match w.writeFile c.tokenFile data with
      | some err =>
        ⟨some (.wrap "failed to write token file: " err), c,
          [.mkdirAll dir 0o700, .writeFile c.tokenFile data 0o600]⟩
      | none =>
        ⟨none, { c with token := some t },
          [.mkdirAll dir 0o700, .writeFile c.tokenFile data 0o600]⟩

/-- The token request that `requestNewToken` builds. -/
def tokenRequest (w : World) (c : BlackboardClient) : Request :=
  ((NewRequest "POST" (c.BaseURL ++ w.tokenEndpoint) (some "grant_type=client_credentials")).setHeader
    "Content-Type" "application/x-www-form-urlencoded").SetBasicAuth w c.clientID c.clientSecret

/-- The method `(*BlackboardClient).requestNewToken`. The returned value is the
error, `none` for `nil`. -/
def requestNewToken (w : World) (c : BlackboardClient) : Run (Option GoError) :=
  if c.token.isSome && !IsExpired c.token w.nowCheck then
    ⟨none, c, []⟩
  else
    let url := c.BaseURL ++ w.tokenEndpoint
    match w.newRequest "POST" url with
    | some err => ⟨some (.wrap "failed to create token request: " err), c, []⟩
    | none =>
      let req := tokenRequest w c
      match w.httpDo req with
      | .error err =>
        ⟨some (.wrap "failed to execute token request: " err), c, [.httpDo req]⟩
      | .ok resp =>
        if resp.StatusCode ≠ 200 then
          let bodyBytes := readAllLimited w.maxResponseSize resp.Body
          ⟨some (.new ("failed to get token: status " ++ toString resp.StatusCode
              ++ ", body: " ++ bodyBytes)), c, [.httpDo req]⟩
        else
          match w.decodeToken resp.Body with
          | .error err =>
            ⟨some (.wrap "failed to decode token response: " err), c, [.httpDo req]⟩
          | .ok decoded =>
            let newToken : Token :=
              { decoded with Expiry := w.nowIssue + wrapInt64 (decoded.ExpiresIn * second) }
            if newToken.AccessToken = "" then
              ⟨some (.new "received empty access token from blackboard"), c, [.httpDo req]⟩
            else
              let saved := saveToken w c newToken
              match saved.ret with
              | some err =>
                ⟨none, saved.client, .httpDo req :: saved.trace ++
                  [.printf ("Warning: failed to save token to file: " ++ err.Error ++ "\n")]⟩
              | none => ⟨none, saved.client, .httpDo req :: saved.trace⟩

/-- The business request that `sendRequest` builds for a non-nil token. -/
def businessRequest (c : BlackboardClient) (tok : Token) (method path : String)
    (body : Option String) : Request :=
  let req := ((NewRequest method (c.BaseURL ++ path) body).setHeader
    "Authorization" ("Bearer " ++ tok.AccessToken)).setHeader "Accept" "application/json"
  if body.isSome && (method == "POST" || method == "PUT" || method == "PATCH") then
    req.setHeader "Content-Type" "application/json"
  else req

/-- The method `(*BlackboardClient).sendRequest`. A returned pair
`(resp, err)` is an `Except`; reading `token.AccessToken` through a `nil` token
is the panic. -/
def sendRequest (w : World) (c : BlackboardClient) (method path : String)
    (body : Option String) : Run (Outcome (Except GoError Response)) :=
  let auth : Run (Option GoError) :=
    if c.token.isNone || IsExpired c.token w.nowSend then requestNewToken w c
    else ⟨none, c, []⟩
  match auth.ret with
  | some err => ⟨.ret (.error (.wrap "auth failure: " err)), auth.client, auth.trace⟩
  | none =>
    match w.newRequest method (c.BaseURL ++ path) with
    | some err => ⟨.ret (.error (.wrap "creating request: " err)), auth.client, auth.trace⟩
    | none =>
      match auth.client.token with
      | none =>
        ⟨.panic "runtime error: invalid memory address or nil pointer dereference",
          auth.client, auth.trace⟩
      | some tok =>
        let req := businessRequest c tok method path body
        ⟨.ret (w.httpDo req), auth.client, auth.trace ++ [.httpDo req]⟩

/-- The relation `strings.Contains(s, sub)`. -/
def Contains (s sub : String) : Prop :=
  ∃ before after : String, s = before ++ sub ++ after

/-- The token `requestNewToken` makes of a decoded exchange answer: the expiry is
`time.Now().Add(time.Duration(newToken.ExpiresIn) * time.Second)`. -/
def issuedToken (w : World) (decoded : Token) : Token :=
  { decoded with Expiry := w.nowIssue + wrapInt64 (decoded.ExpiresIn * second) }

/-- The token step of `sendRequest`, its first statement: `requestNewToken` is
called when the shared token is nil or expired at the reading `nowSend`. -/
def tokenStep (w : World) (c : BlackboardClient) : Run (Option GoError) :=
  if c.token.isNone || IsExpired c.token w.nowSend then requestNewToken w c
  else ⟨none, c, []⟩

/-! ## client.go: the cached token file and the constructor -/

/-- The error variable `ErrClientInitError`. -/
def ErrClientInitError : GoError := .new "clientID, clientSecret, and baseURL are required"

/-- The error variable `ErrTokenExpired`. -/
def ErrTokenExpired : GoError := .new "token expired"

/-- The error variable `ErrTokenMissing`. -/
def ErrTokenMissing : GoError := .new "token file missing"

/-- What `os.Open(path)` and reading the opened file yield: the bytes of the
file, an error for which `os.IsNotExist` holds, or another error. -/
inductive OpenResult where
  | opened (content : String)
  | notExist (err : GoError)
  | failed (err : GoError)
deriving DecidableEq, Repr

/-- The file system as the code reads it: what opening each path yields. -/
structure Disk where
  read : String → OpenResult

/-- The disk after `data` was written to `path`. -/
def Disk.write (d : Disk) (path data : String) : Disk :=
  ⟨fun p => if p = path then .opened data else d.read p⟩

/-- The disk after one effect: a call of `os.WriteFile` that succeeds leaves
`data` in the file. A write that fails is taken to leave the disk as it was, no
property below depends on it. The other effects do not change what a file
holds. -/
def Disk.apply (w : World) (d : Disk) : Effect → Disk
  | .writeFile path data _ =>
    match w.writeFile path data with
    | none => d.write path data
    | some _ => d
  | _ => d

/-- The disk after the effects of a run, in order. -/
def Disk.after (w : World) (d : Disk) (trace : List Effect) : Disk :=
  trace.foldl (Disk.apply w) d

/-- The method `(*BlackboardClient).loadToken`, with `now` the value of
`time.Now()` at its expiry check. The returned value is the error, `none` for
`nil`. -/
def loadToken (w : World) (d : Disk) (now : Int) (c : BlackboardClient) :
    Run (Option GoError) :=
  match d.read c.tokenFile with
  | .notExist _ => ⟨some ErrTokenMissing, c, []⟩
  | .failed err => ⟨some (.wrap "failed to open token file: " err), c, []⟩
  | .opened content =>
    match w.decodeToken content with
    | .error err => ⟨some (.wrap "failed to decode token file: " err), c, []⟩
    | .ok t =>
      if IsExpired (some t) now then ⟨some ErrTokenExpired, c, []⟩
      else ⟨none, { c with token := some t }, []⟩

/-- The function `NewClient`. A returned pair `(client, err)` is an `Except`:
`(nil, err)` is `error err` and `(client, nil)` is `ok client`. -/
def NewClient (w : World) (d : Disk) (now : Int)
    (clientID clientSecret baseURL tokenPath : String) : Except GoError BlackboardClient :=
  if clientID = "" ∨ clientSecret = "" ∨ baseURL = "" then .error ErrClientInitError
  else
    let tokenPath := if tokenPath = "" then "data/.token.json" else tokenPath
    let client : BlackboardClient :=
      { clientID := clientID, clientSecret := clientSecret, BaseURL := baseURL, token := none,
        tokenFile := tokenPath }
    .ok (loadToken w d now client).client

/-- The method `(*BlackboardClient).Get`. -/
def Get (w : World) (c : BlackboardClient) (path : String) :
    Run (Outcome (Except GoError Response)) :=
  sendRequest w c "GET" path none

/-- The common shape of `Post`, `Put` and `Patch`: `marshalled` is the result of
`json.Marshal(jsonBody)`; its error is returned as it is, its bytes are sent. -/
def sendJSON (w : World) (c : BlackboardClient) (method path : String)
    (marshalled : Except GoError String) : Run (Outcome (Except GoError Response)) :=
  match marshalled with
  | .error err => ⟨.ret (.error err), c, []⟩
  | .ok body => sendRequest w c method path (some body)

/-- The method `(*BlackboardClient).Post`. -/
def Post (w : World) (c : BlackboardClient) (path : String)
    (marshalled : Except GoError String) : Run (Outcome (Except GoError Response)) :=
  sendJSON w c "POST" path marshalled

/-- The method `(*BlackboardClient).Put`. -/
def Put (w : World) (c : BlackboardClient) (path : String)
    (marshalled : Except GoError String) : Run (Outcome (Except GoError Response)) :=
  sendJSON w c "PUT" path marshalled

/-- The method `(*BlackboardClient).Patch`. -/
def Patch (w : World) (c : BlackboardClient) (path : String)
    (marshalled : Except GoError String) : Run (Outcome (Except GoError Response)) :=
  sendJSON w c "PATCH" path marshalled

/-- The method `(*BlackboardClient).Delete`. -/
def Delete (w : World) (c : BlackboardClient) (path : String) :
    Run (Outcome (Except GoError Response)) :=
  sendRequest w c "DELETE" path none

/-! ## input.go -/

/-- The function `RequiredString`; `TrimSpace` is `strings.TrimSpace`. The
returned pair is the string and the error, `none` for `nil`. -/
def RequiredString (TrimSpace : String → String) (value fieldName : String) :
    String × Option GoError :=
  let trimmedInput := TrimSpace value
  if trimmedInput = "" then
    ("", some (.new (fieldName ++ " is required and cannot be empty or only whitespace")))
  else (trimmedInput, none)

/-- The function `OptionalString`; `TrimSpace` is `strings.TrimSpace`. -/
def OptionalString (TrimSpace : String → String) (value : String) : String :=
  TrimSpace value

/-! ## endpoints/users.go and users.go -/

/-- The method `endpoints.Users.GetByUsername`. -/
def GetByUsername (username : String) : String :=
  "/learn/api/public/v1/users/userName:" ++ username

/-- The method `(*UserService).DoesUserExist`, for the client `c` the service
holds. The returned pair is the boolean and the error, `none` for `nil`; a panic
of `Get` is the panic of the call. -/
def DoesUserExist (w : World) (c : BlackboardClient) (username : String) :
    Run (Outcome (Bool × Option GoError)) :=
  let url := GetByUsername username
  let got := Get w c url
  match got.ret with
  | .panic text => ⟨.panic text, got.client, got.trace⟩
  | .ret (.error err) =>
    ⟨.ret (false, some (.wrap "check user failed: " err)), got.client, got.trace⟩
  | .ret (.ok resp) =>
    if resp.StatusCode = 200 then ⟨.ret (true, none), got.client, got.trace⟩
    else if resp.StatusCode = 404 then ⟨.ret (false, none), got.client, got.trace⟩
    else
      ⟨.ret (false, some (.new ("unexpected API status: " ++ toString resp.StatusCode))),
        got.client, got.trace⟩

/-! ## Sample inputs -/

/-- The token decoded from the exchange answer
`{"access_token":"abc","token_type":"bearer","expires_in":3600}`. -/
def sampleToken : Token :=
  { AccessToken := "abc", TokenType := "bearer", RefreshToken := "", ExpiresIn := 3600,
    Expiry := 0 }

/-- A client that holds no token yet. -/
def sampleClient : BlackboardClient :=
  { clientID := "id", clientSecret := "secret", BaseURL := "https://bb.example.edu",
    token := none, tokenFile := "data/.token.json" }

/-- A world in which every step succeeds: the exchange answers 200 with
`sampleToken` and the cache file is written. All clock readings are `0`. -/
def sampleWorld : World :=
  { nowSend := 0, nowCheck := 0, nowIssue := 0,
    tokenEndpoint := "/learn/api/public/v1/oauth2/token",
    maxResponseSize := 1048576,
    newRequest := fun _ _ => none,
    httpDo := fun _ => .ok
      ⟨200, "\x7b\"access_token\":\"abc\",\"token_type\":\"bearer\",\"expires_in\":3600\x7d"⟩,
    decodeToken := fun _ => .ok sampleToken,
    base64 := fun s => s,
    filepathDir := fun _ => "data",
    mkdirAll := fun _ => none,
    marshalToken := fun _ => .ok "\x7b\x7d",
    writeFile := fun _ _ => none }

/-- The world of `sampleWorld` in which the server reports a lifetime of 60
seconds. -/
def shortLivedWorld : World :=
  { sampleWorld with decodeToken := fun _ => .ok { sampleToken with ExpiresIn := 60 } }

/-- The world of `sampleWorld` in which `os.MkdirAll` fails. -/
def readOnlyWorld : World :=
  { sampleWorld with mkdirAll := fun _ => some (.new "mkdir data: permission denied") }

/-- The world of `sampleWorld` in which the exchange answers 403 with the body
`{"error":"invalid_client"}`. -/
def forbiddenWorld : World :=
  { sampleWorld with
    httpDo := fun _ => .ok ⟨403, "\x7b\"error\":\"invalid_client\"\x7d"⟩ }

/-- The world of `sampleWorld` in which the exchange answers 200 with
`{"access_token":"","expires_in":3600}`. -/
def emptyCredentialWorld : World :=
  { sampleWorld with
    httpDo := fun _ => .ok ⟨200, "\x7b\"access_token\":\"\",\"expires_in\":3600\x7d"⟩,
    decodeToken := fun _ => .ok { sampleToken with AccessToken := "", TokenType := "" } }

/-- The token of `sampleToken` issued at instant `0` for one hour. -/
def cachedToken : Token :=
  { sampleToken with Expiry := 3600000000000 }

/-- The world of `sampleWorld` whose JSON codec writes `cachedToken` as the text of
the cache file and reads that text back as `cachedToken`. -/
def cacheWorld : World :=
  { sampleWorld with
    marshalToken := fun _ => .ok
      ("\x7b\"access_token\":\"abc\",\"token_type\":\"bearer\",\"expires_in\":3600," ++
        "\"expiry\":\"1970-01-01T01:00:00Z\"\x7d"),
    decodeToken := fun _ => .ok cachedToken }

/-- The world of `sampleWorld` in which every request is answered with the status
`status` and an empty body. -/
def statusWorld (status : Int) : World :=
  { sampleWorld with httpDo := fun _ => .ok ⟨status, ""⟩ }

/-- A disk on which no file exists. -/
def emptyDisk : Disk :=
  ⟨fun path => .notExist (.new ("open " ++ path ++ ": no such file or directory"))⟩

/-- Whether a byte is one of the six ASCII white space characters. -/
def isAsciiSpace (ch : Char) : Bool :=
  ch = ' ' || ch = '\t' || ch = '\n' || ch = '\r' || ch.toNat = 11 || ch.toNat = 12

/-- What `strings.TrimSpace` yields on a string of ASCII bytes: leading and trailing
white space is dropped. -/
def trimAsciiSpace (s : String) : String :=
  ⟨((s.data.dropWhile isAsciiSpace).reverse.dropWhile isAsciiSpace).reverse⟩

/-! ## Properties of `IsExpired` -/

theorem isExpired_none (now : Int) : IsExpired none now = true := rfl

theorem isExpired_some (tok : Token) (now : Int) (h : tok.AccessToken ≠ "") :
    IsExpired (some tok) now = decide (now + 2 * minute > tok.Expiry) := by
  simp [IsExpired, h]

theorem isExpired_false_iff (t : Option Token) (now : Int) :
    IsExpired t now = false ↔
      ∃ tok, t = some tok ∧ tok.AccessToken ≠ "" ∧ now + 2 * minute ≤ tok.Expiry := by
  cases t with
  | none => simp [IsExpired]
  | some tok =>
    by_cases h : tok.AccessToken = ""
    · simp [IsExpired, h]
    · simp [IsExpired, h]

/-- C1, as stated, fails at the boundary: a token with a non-empty credential
whose expiry is exactly two minutes after the current instant is reported not
expired, because `After` is a strict comparison. -/
theorem isExpired_boundary_is_usable :
    ({ sampleToken with Expiry := 120000000000 } : Token).AccessToken ≠ "" ∧
    (0 : Int) + 2 * minute ≥ ({ sampleToken with Expiry := 120000000000 } : Token).Expiry ∧
    IsExpired (some { sampleToken with Expiry := 120000000000 }) 0 = false := by
  decide

/-- C1, amended: for a token with a non-empty access credential, `IsExpired`
returns true if and only if the current instant plus two minutes is strictly
after the expiry; at the boundary the token is still usable. -/
theorem isExpired_iff_margin_after (tok : Token) (now : Int) (h : tok.AccessToken ≠ "") :
    (IsExpired (some tok) now = true ↔ now + 2 * minute > tok.Expiry) ∧
    (now + 2 * minute = tok.Expiry → IsExpired (some tok) now = false) := by
  rw [isExpired_some tok now h]
  constructor
  · simp
  · intro heq
    simp [heq]

/-- Instance of the amended C1 at `sampleToken`, whose expiry is the current instant. -/
theorem isExpired_iff_margin_after_witness :
    sampleToken.AccessToken ≠ "" ∧
    (IsExpired (some sampleToken) 0 = true ↔ (0 : Int) + 2 * minute > sampleToken.Expiry) ∧
    ((0 : Int) + 2 * minute = sampleToken.Expiry → IsExpired (some sampleToken) 0 = false) :=
  ⟨by decide, isExpired_iff_margin_after sampleToken 0 (by decide)⟩

/-- C2: a token whose access credential is empty is expired at every instant,
whatever its expiry, and so is the nil token. -/
theorem isExpired_of_empty_credential (tok : Token) (now : Int) (h : tok.AccessToken = "") :
    IsExpired (some tok) now = true ∧ IsExpired none now = true := by
  simp [IsExpired, h]

/-- Instance of C2 at an expiry far in the future. -/
theorem isExpired_of_empty_credential_witness :
    ({ sampleToken with AccessToken := "", Expiry := 10 ^ 30 } : Token).AccessToken = "" ∧
    IsExpired (some { sampleToken with AccessToken := "", Expiry := 10 ^ 30 }) 0 = true ∧
    IsExpired none 0 = true :=
  ⟨rfl, isExpired_of_empty_credential
    { sampleToken with AccessToken := "", Expiry := 10 ^ 30 } 0 rfl⟩

/-! ## Properties of `saveToken` and `requestNewToken` -/

theorem saveToken_client (w : World) (c : BlackboardClient) (t : Token) :
    (saveToken w c t).client =
      if (saveToken w c t).ret = none then { c with token := some t } else c := by
  unfold saveToken
  rcases h1 : w.mkdirAll (w.filepathDir c.tokenFile) with _ | e
  · rcases h2 : w.marshalToken t with e | data
    · simp [h1, h2]
    · rcases h3 : w.writeFile c.tokenFile data with _ | e
      · simp [h1, h2, h3]
      · simp [h1, h2, h3]
  · simp [h1]

theorem requestNewToken_of_usable (w : World) (c : BlackboardClient)
    (h : IsExpired c.token w.nowCheck = false) :
    requestNewToken w c = ⟨none, c, []⟩ := by
  obtain ⟨tok, htok, -, -⟩ := (isExpired_false_iff _ _).1 h
  rw [htok] at h
  unfold requestNewToken
  simp [h, htok]

theorem requestNewToken_exchanged (w : World) (c : BlackboardClient) (resp : Response)
    (decoded : Token) (hexp : IsExpired c.token w.nowCheck = true)
    (hreq : w.newRequest "POST" (c.BaseURL ++ w.tokenEndpoint) = none)
    (hdo : w.httpDo (tokenRequest w c) = .ok resp) (h200 : resp.StatusCode = 200)
    (hdec : w.decodeToken resp.Body = .ok decoded) (hacc : decoded.AccessToken ≠ "") :
    (requestNewToken w c).ret = none ∧
    (requestNewToken w c).client = (saveToken w c (issuedToken w decoded)).client := by
  unfold requestNewToken
  simp only [hexp, hreq, hdo, h200, hdec, issuedToken]
  simp only [Bool.not_true, Bool.and_false, Bool.false_eq_true, if_false, ne_eq,
    not_true_eq_false, hacc]
  rcases hs : (saveToken w c
    { decoded with Expiry := w.nowIssue + wrapInt64 (decoded.ExpiresIn * second) }).ret with _ | e
  · simp [hs]
  · simp [hs]

theorem requestNewToken_exchanged_trace (w : World) (c : BlackboardClient) (resp : Response)
    (decoded : Token) (hexp : IsExpired c.token w.nowCheck = true)
    (hreq : w.newRequest "POST" (c.BaseURL ++ w.tokenEndpoint) = none)
    (hdo : w.httpDo (tokenRequest w c) = .ok resp) (h200 : resp.StatusCode = 200)
    (hdec : w.decodeToken resp.Body = .ok decoded) (hacc : decoded.AccessToken ≠ "") :
    (requestNewToken w c).trace.head? = some (.httpDo (tokenRequest w c)) := by
  unfold requestNewToken
  simp only [hexp, hreq, hdo, h200, hdec]
  simp only [Bool.not_true, Bool.and_false, Bool.false_eq_true, if_false, ne_eq,
    not_true_eq_false, hacc]
  rcases hs : (saveToken w c
    { decoded with Expiry := w.nowIssue + wrapInt64 (decoded.ExpiresIn * second) }).ret with _ | e
  · simp [hs]
  · simp [hs]

theorem requestNewToken_ret_none_inv (w : World) (c : BlackboardClient)
    (hexp : IsExpired c.token w.nowCheck = true) (hret : (requestNewToken w c).ret = none) :
    ∃ resp decoded, w.newRequest "POST" (c.BaseURL ++ w.tokenEndpoint) = none ∧
      w.httpDo (tokenRequest w c) = .ok resp ∧ resp.StatusCode = 200 ∧
      w.decodeToken resp.Body = .ok decoded ∧ decoded.AccessToken ≠ "" := by
  unfold requestNewToken at hret
  simp only [hexp, Bool.not_true, Bool.and_false, Bool.false_eq_true, if_false] at hret
  rcases hreq : w.newRequest "POST" (c.BaseURL ++ w.tokenEndpoint) with _ | e
  · rcases hdo : w.httpDo (tokenRequest w c) with e | resp
    · simp [hreq, hdo] at hret
    · by_cases h200 : resp.StatusCode = 200
      · rcases hdec : w.decodeToken resp.Body with e | decoded
        · simp [hreq, hdo, h200, hdec] at hret
        · by_cases hacc : decoded.AccessToken = ""
          · simp [hreq, hdo, h200, hdec, hacc] at hret
          · exact ⟨resp, decoded, rfl, rfl, h200, hdec, hacc⟩
      · simp [hreq, hdo, h200] at hret
  · simp [hreq] at hret

theorem requestNewToken_error_frame (w : World) (c : BlackboardClient) (e : GoError)
    (hret : (requestNewToken w c).ret = some e) :
    (requestNewToken w c).client = c ∧
    ((requestNewToken w c).trace = [] ∨
      (requestNewToken w c).trace = [.httpDo (tokenRequest w c)]) := by
  by_cases hexp : IsExpired c.token w.nowCheck = false
  · rw [requestNewToken_of_usable w c hexp] at hret
    simp at hret
  · have hexp1 : IsExpired c.token w.nowCheck = true := by simpa using hexp
    unfold requestNewToken at hret ⊢
    simp only [hexp1, Bool.not_true, Bool.and_false, Bool.false_eq_true, if_false] at hret ⊢
    rcases hreq : w.newRequest "POST" (c.BaseURL ++ w.tokenEndpoint) with _ | e1
    · rcases hdo : w.httpDo (tokenRequest w c) with e1 | resp
      · simp [hreq, hdo]
      · by_cases h200 : resp.StatusCode = 200
        · rcases hdec : w.decodeToken resp.Body with e1 | decoded
          · simp [hreq, hdo, h200, hdec]
          · by_cases hacc : decoded.AccessToken = ""
            · simp [hreq, hdo, h200, hdec, hacc]
            · simp only [hreq, hdo, h200, hdec, hacc, ne_eq, not_true_eq_false, if_false]
                at hret
              rcases hs : (saveToken w c { decoded with
                Expiry := w.nowIssue + wrapInt64 (decoded.ExpiresIn * second) }).ret with _ | e2
              · simp [hs] at hret
              · simp [hs] at hret
        · simp [hreq, hdo, h200]
    · simp [hreq]

/-- C3, as stated, fails: the server reports a lifetime of 60 seconds, the
exchange and the cache save succeed, `requestNewToken` returns no error and
installs the new token, and that token is expired at the very instant it was
issued, its expiry being less than two minutes ahead. -/
theorem requestNewToken_ok_yet_expired :
    (requestNewToken shortLivedWorld sampleClient).ret = none ∧
    (requestNewToken shortLivedWorld sampleClient).client.token =
      some { sampleToken with ExpiresIn := 60, Expiry := 60000000000 } ∧
    IsExpired (requestNewToken shortLivedWorld sampleClient).client.token
      shortLivedWorld.nowIssue = true := by
  decide

/-- C3, amended: if `requestNewToken` returns without error in a world where
saving to the cache file does not fail and every lifetime the server reports is
at least two minutes (after the `int64` conversion to nanoseconds), then the
shared token is non-nil and not expired at the clock reading the call took last:
that of the expiry check on the fast path, the issue instant after an
exchange. -/
theorem requestNewToken_ok_usable (w : World) (c : BlackboardClient)
    (hret : (requestNewToken w c).ret = none)
    (hsave : ∀ t, (saveToken w c t).ret = none)
    (hlife : ∀ body decoded, w.decodeToken body = .ok decoded →
      2 * minute ≤ wrapInt64 (decoded.ExpiresIn * second)) :
    ∃ tok, (requestNewToken w c).client.token = some tok ∧
      (((requestNewToken w c).trace = [] ∧ IsExpired (some tok) w.nowCheck = false) ∨
       ((requestNewToken w c).trace ≠ [] ∧ IsExpired (some tok) w.nowIssue = false)) := by
  by_cases hexp : IsExpired c.token w.nowCheck = false
  · obtain ⟨tok, htok, -, -⟩ := (isExpired_false_iff _ _).1 hexp
    rw [requestNewToken_of_usable w c hexp]
    exact ⟨tok, htok, Or.inl ⟨rfl, htok ▸ hexp⟩⟩
  · have hexp1 : IsExpired c.token w.nowCheck = true := by simpa using hexp
    obtain ⟨resp, decoded, hreq, hdo, h200, hdec, hacc⟩ :=
      requestNewToken_ret_none_inv w c hexp1 hret
    have hcl := (requestNewToken_exchanged w c resp decoded hexp1 hreq hdo h200 hdec hacc).2
    have htr := requestNewToken_exchanged_trace w c resp decoded hexp1 hreq hdo h200 hdec hacc
    rw [saveToken_client, if_pos (hsave _)] at hcl
    refine ⟨issuedToken w decoded, by rw [hcl], Or.inr ⟨?_, ?_⟩⟩
    · intro hnil
      rw [hnil] at htr
      simp at htr
    · rw [isExpired_false_iff]
      refine ⟨_, rfl, hacc, ?_⟩
      have := hlife _ _ hdec
      simp only [issuedToken]
      omega

/-- Instance of the amended C3 at `sampleWorld`: a lifetime of 3600 seconds, the save succeeds. -/
theorem requestNewToken_ok_usable_witness :
    (requestNewToken sampleWorld sampleClient).ret = none ∧
    (∀ t, (saveToken sampleWorld sampleClient t).ret = none) ∧
    (∀ body decoded, sampleWorld.decodeToken body = .ok decoded →
      2 * minute ≤ wrapInt64 (decoded.ExpiresIn * second)) ∧
    ∃ tok, (requestNewToken sampleWorld sampleClient).client.token = some tok ∧
      (((requestNewToken sampleWorld sampleClient).trace = [] ∧
          IsExpired (some tok) sampleWorld.nowCheck = false) ∨
       ((requestNewToken sampleWorld sampleClient).trace ≠ [] ∧
          IsExpired (some tok) sampleWorld.nowIssue = false)) :=
  have h1 : (requestNewToken sampleWorld sampleClient).ret = none := by decide
  have h2 : ∀ t, (saveToken sampleWorld sampleClient t).ret = none := fun _ => rfl
  have h3 : ∀ body decoded, sampleWorld.decodeToken body = .ok decoded →
      2 * minute ≤ wrapInt64 (decoded.ExpiresIn * second) := by
    intro body decoded h
    have hd : decoded = sampleToken := by
      simpa [sampleWorld] using h.symm
    subst hd
    decide
  ⟨h1, h2, h3, requestNewToken_ok_usable sampleWorld sampleClient h1 h2 h3⟩

/-- C4 fails on the code: the exchange answers 200 with a non-empty access
credential, creating the cache directory fails, and `requestNewToken` returns
no error while the shared token is still nil: the decoded token is not
installed, because the assignment to `c.token` is the last statement of
`saveToken`. -/
theorem requestNewToken_save_failure_drops_token :
    IsExpired sampleClient.token readOnlyWorld.nowCheck = true ∧
    readOnlyWorld.httpDo (tokenRequest readOnlyWorld sampleClient) = .ok
      ⟨200, "\x7b\"access_token\":\"abc\",\"token_type\":\"bearer\",\"expires_in\":3600\x7d"⟩ ∧
    (saveToken readOnlyWorld sampleClient (issuedToken readOnlyWorld sampleToken)).ret =
      some (.wrap "failed to create token directory: "
        (.new "mkdir data: permission denied")) ∧
    (requestNewToken readOnlyWorld sampleClient).ret = none ∧
    (requestNewToken readOnlyWorld sampleClient).client.token = none :=
  ⟨by decide, rfl, by decide, by decide, by decide⟩

/-- C5: after a successful exchange (HTTP 200, decodable body, non-empty access
credential) `requestNewToken` returns no error, whatever `saveToken` returns;
and `sendRequest` then ends in one of three ways, none of which is the error of
the save: the error of building the business request, the answer of the
transport to the business request, or the panic of reading a nil token. -/
theorem persistence_failure_not_returned (w : World) (c : BlackboardClient)
    (method path : String) (body : Option String) (resp : Response) (decoded : Token)
    (hreq : w.newRequest "POST" (c.BaseURL ++ w.tokenEndpoint) = none)
    (hdo : w.httpDo (tokenRequest w c) = .ok resp) (h200 : resp.StatusCode = 200)
    (hdec : w.decodeToken resp.Body = .ok decoded) (hacc : decoded.AccessToken ≠ "") :
    (requestNewToken w c).ret = none ∧
    ((∃ e, w.newRequest method (c.BaseURL ++ path) = some e ∧
        (sendRequest w c method path body).ret = .ret (.error (.wrap "creating request: " e))) ∨
     (∃ tok, (sendRequest w c method path body).ret =
        .ret (w.httpDo (businessRequest c tok method path body))) ∨
     (sendRequest w c method path body).ret =
        .panic "runtime error: invalid memory address or nil pointer dereference") := by
  have hnone : (requestNewToken w c).ret = none := by
    by_cases hexp : IsExpired c.token w.nowCheck = false
    · rw [requestNewToken_of_usable w c hexp]
    · have hexp1 : IsExpired c.token w.nowCheck = true := by simpa using hexp
      exact (requestNewToken_exchanged w c resp decoded hexp1 hreq hdo h200 hdec hacc).1
  refine ⟨hnone, ?_⟩
  have hauth : (if c.token.isNone || IsExpired c.token w.nowSend then requestNewToken w c
      else (⟨none, c, []⟩ : Run (Option GoError))).ret = none := by
    split
    · exact hnone
    · rfl
  unfold sendRequest
  simp only [hauth]
  rcases hnr : w.newRequest method (c.BaseURL ++ path) with _ | e
  · simp only []
    split
    · exact Or.inr (Or.inr rfl)
    · exact Or.inr (Or.inl ⟨_, rfl⟩)
  · exact Or.inl ⟨e, rfl, rfl⟩

/-- Instance of C5 at `readOnlyWorld`, where the save fails. -/
theorem persistence_failure_not_returned_witness :
    (requestNewToken readOnlyWorld sampleClient).ret = none ∧
    ((∃ e, readOnlyWorld.newRequest "GET" (sampleClient.BaseURL ++ "/users") = some e ∧
        (sendRequest readOnlyWorld sampleClient "GET" "/users" none).ret =
          .ret (.error (.wrap "creating request: " e))) ∨
     (∃ tok, (sendRequest readOnlyWorld sampleClient "GET" "/users" none).ret =
        .ret (readOnlyWorld.httpDo (businessRequest sampleClient tok "GET" "/users" none))) ∨
     (sendRequest readOnlyWorld sampleClient "GET" "/users" none).ret =
        .panic "runtime error: invalid memory address or nil pointer dereference") :=
  persistence_failure_not_returned readOnlyWorld sampleClient "GET" "/users" none
    ⟨200, "\x7b\"access_token\":\"abc\",\"token_type\":\"bearer\",\"expires_in\":3600\x7d"⟩
    sampleToken rfl rfl rfl rfl (by decide)

theorem contains_suffix (a sub : String) : Contains (a ++ sub) sub :=
  ⟨a, "", by simp⟩

theorem readAllLimited_of_le (n : Nat) (body : String) (h : body.length ≤ n) :
    readAllLimited n body = body := by
  cases body with
  | mk l =>
    simp only [readAllLimited, String.length] at h ⊢
    rw [List.take_of_length_le h]

/-- C6: when the shared token is unusable and the exchange answers with a status
other than 200, `requestNewToken` returns the error
`failed to get token: status <code>, body: <body>`, whose message contains the
decimal status code and the body read up to the size cap (the whole body when it
is not longer than the cap). -/
theorem requestNewToken_status_error (w : World) (c : BlackboardClient) (resp : Response)
    (hexp : IsExpired c.token w.nowCheck = true)
    (hreq : w.newRequest "POST" (c.BaseURL ++ w.tokenEndpoint) = none)
    (hdo : w.httpDo (tokenRequest w c) = .ok resp) (hne : resp.StatusCode ≠ 200) :
    ∃ e, (requestNewToken w c).ret = some e ∧
      e.Error = "failed to get token: status " ++ toString resp.StatusCode ++ ", body: " ++
        readAllLimited w.maxResponseSize resp.Body ∧
      Contains e.Error (toString resp.StatusCode) ∧
      Contains e.Error (readAllLimited w.maxResponseSize resp.Body) ∧
      (resp.Body.length ≤ w.maxResponseSize → Contains e.Error resp.Body) := by
  refine ⟨.new ("failed to get token: status " ++ toString resp.StatusCode ++ ", body: " ++
    readAllLimited w.maxResponseSize resp.Body), ?_, rfl, ?_, ?_, ?_⟩
  · unfold requestNewToken
    simp [hexp, hreq, hdo, hne]
  · exact ⟨"failed to get token: status ",
      ", body: " ++ readAllLimited w.maxResponseSize resp.Body,
      by simp only [GoError.Error, String.append_assoc]⟩
  · exact contains_suffix _ _
  · intro hle
    simp only [GoError.Error, readAllLimited_of_le _ _ hle]
    exact contains_suffix _ _

/-- Instance of C6 at the 403 answer of `forbiddenWorld`. -/
theorem requestNewToken_status_error_witness :
    IsExpired sampleClient.token forbiddenWorld.nowCheck = true ∧
    forbiddenWorld.httpDo (tokenRequest forbiddenWorld sampleClient) =
      .ok ⟨403, "\x7b\"error\":\"invalid_client\"\x7d"⟩ ∧
    ∃ e, (requestNewToken forbiddenWorld sampleClient).ret = some e ∧
      Contains e.Error "403" ∧ Contains e.Error "\x7b\"error\":\"invalid_client\"\x7d" := by
  obtain ⟨e, h1, -, h3, -, h5⟩ := requestNewToken_status_error forbiddenWorld sampleClient
    ⟨403, "\x7b\"error\":\"invalid_client\"\x7d"⟩ (by decide) rfl rfl (by decide)
  exact ⟨by decide, rfl, e, h1, h3, h5 (by decide)⟩

/-- C7: when the shared token is unusable and the exchange answers 200 with a
body whose decoded access credential is empty, `requestNewToken` returns the
error `received empty access token from blackboard`, leaves the client as it
was, and its only effect is the exchange request: `saveToken` is not called, no
directory is created and no file is written. -/
theorem requestNewToken_empty_credential (w : World) (c : BlackboardClient) (resp : Response)
    (decoded : Token) (hexp : IsExpired c.token w.nowCheck = true)
    (hreq : w.newRequest "POST" (c.BaseURL ++ w.tokenEndpoint) = none)
    (hdo : w.httpDo (tokenRequest w c) = .ok resp) (h200 : resp.StatusCode = 200)
    (hdec : w.decodeToken resp.Body = .ok decoded) (hacc : decoded.AccessToken = "") :
    (requestNewToken w c).ret = some (.new "received empty access token from blackboard") ∧
    (requestNewToken w c).client = c ∧
    (requestNewToken w c).trace = [.httpDo (tokenRequest w c)] ∧
    (∀ dir perm, Effect.mkdirAll dir perm ∉ (requestNewToken w c).trace) ∧
    (∀ path data perm, Effect.writeFile path data perm ∉ (requestNewToken w c).trace) := by
  have h : requestNewToken w c =
      ⟨some (.new "received empty access token from blackboard"), c,
        [.httpDo (tokenRequest w c)]⟩ := by
    unfold requestNewToken
    simp [hexp, hreq, hdo, h200, hdec, hacc]
  rw [h]
  simp

/-- Instance of C7 at `emptyCredentialWorld`. -/
theorem requestNewToken_empty_credential_witness :
    IsExpired sampleClient.token emptyCredentialWorld.nowCheck = true ∧
    emptyCredentialWorld.httpDo (tokenRequest emptyCredentialWorld sampleClient) =
      .ok ⟨200, "\x7b\"access_token\":\"\",\"expires_in\":3600\x7d"⟩ ∧
    (requestNewToken emptyCredentialWorld sampleClient).ret =
      some (.new "received empty access token from blackboard") ∧
    (requestNewToken emptyCredentialWorld sampleClient).client = sampleClient ∧
    (requestNewToken emptyCredentialWorld sampleClient).trace =
      [.httpDo (tokenRequest emptyCredentialWorld sampleClient)] ∧
    (∀ dir perm,
      Effect.mkdirAll dir perm ∉ (requestNewToken emptyCredentialWorld sampleClient).trace) ∧
    (∀ path data perm,
      Effect.writeFile path data perm ∉
        (requestNewToken emptyCredentialWorld sampleClient).trace) :=
  ⟨by decide, rfl, requestNewToken_empty_credential emptyCredentialWorld sampleClient
    ⟨200, "\x7b\"access_token\":\"\",\"expires_in\":3600\x7d"⟩
    { sampleToken with AccessToken := "", TokenType := "" } (by decide) rfl rfl rfl rfl rfl⟩

/-- C8: whenever `requestNewToken` returns an error the client, and so its shared
token, is the one before the call; and when the shared token after the call
differs from the one before, the call returned no error, the token was unusable
and the exchange answered 200 with a decodable body whose access credential is
not empty. -/
theorem requestNewToken_atomic (w : World) (c : BlackboardClient) :
    (∀ e, (requestNewToken w c).ret = some e → (requestNewToken w c).client = c) ∧
    ((requestNewToken w c).client.token ≠ c.token →
      (requestNewToken w c).ret = none ∧ IsExpired c.token w.nowCheck = true ∧
      ∃ resp decoded, w.httpDo (tokenRequest w c) = .ok resp ∧ resp.StatusCode = 200 ∧
        w.decodeToken resp.Body = .ok decoded ∧ decoded.AccessToken ≠ "" ∧
        (requestNewToken w c).client.token = some (issuedToken w decoded)) := by
  refine ⟨fun e he => (requestNewToken_error_frame w c e he).1, ?_⟩
  intro hchg
  have hnone : (requestNewToken w c).ret = none := by
    rcases hr : (requestNewToken w c).ret with _ | e
    · rfl
    · exact absurd (by rw [(requestNewToken_error_frame w c e hr).1]) hchg
  have hexp : IsExpired c.token w.nowCheck = true := by
    by_contra hcon
    have hf : IsExpired c.token w.nowCheck = false := by simpa using hcon
    exact hchg (by rw [requestNewToken_of_usable w c hf])
  obtain ⟨resp, decoded, hreq, hdo, h200, hdec, hacc⟩ :=
    requestNewToken_ret_none_inv w c hexp hnone
  refine ⟨hnone, hexp, resp, decoded, hdo, h200, hdec, hacc, ?_⟩
  have hcl := (requestNewToken_exchanged w c resp decoded hexp hreq hdo h200 hdec hacc).2
  rw [saveToken_client] at hcl
  by_cases hs : (saveToken w c (issuedToken w decoded)).ret = none
  · rw [if_pos hs] at hcl
    rw [hcl]
  · rw [if_neg hs] at hcl
    exact absurd (by rw [hcl]) hchg

/-- Instance of C8: an expired token is kept when the exchange answers 403. -/
theorem requestNewToken_atomic_witness :
    (requestNewToken forbiddenWorld { sampleClient with token := some sampleToken }).ret =
      some (.new
        "failed to get token: status 403, body: \x7b\"error\":\"invalid_client\"\x7d") ∧
    (requestNewToken forbiddenWorld { sampleClient with token := some sampleToken }).client =
      { sampleClient with token := some sampleToken } :=
  ⟨by decide, (requestNewToken_atomic forbiddenWorld
    { sampleClient with token := some sampleToken }).1
    (.new "failed to get token: status 403, body: \x7b\"error\":\"invalid_client\"\x7d")
    (by decide)⟩

/-- C9, the fast path: when the shared token is non-nil and not expired at the
expiry check, `requestNewToken` returns no error, performs no effect at all (no
exchange request, no write of the cache file) and leaves the client, and so the
shared token, unchanged. -/
theorem requestNewToken_fast_path (w : World) (c : BlackboardClient) (tok : Token)
    (htok : c.token = some tok) (hexp : IsExpired c.token w.nowCheck = false) :
    (requestNewToken w c).ret = none ∧ (requestNewToken w c).trace = [] ∧
    (requestNewToken w c).client = c ∧ (requestNewToken w c).client.token = some tok := by
  rw [requestNewToken_of_usable w c hexp]
  exact ⟨rfl, rfl, rfl, htok⟩

/-- Instance of C9 at a token that expires one hour after the current instant. -/
theorem requestNewToken_fast_path_witness :
    IsExpired (some { sampleToken with Expiry := 3600000000000 }) sampleWorld.nowCheck = false ∧
    (requestNewToken sampleWorld
      { sampleClient with token := some { sampleToken with Expiry := 3600000000000 } }).ret
      = none ∧
    (requestNewToken sampleWorld
      { sampleClient with token := some { sampleToken with Expiry := 3600000000000 } }).trace
      = [] ∧
    (requestNewToken sampleWorld
      { sampleClient with token := some { sampleToken with Expiry := 3600000000000 } }).client
      = { sampleClient with token := some { sampleToken with Expiry := 3600000000000 } } ∧
    (requestNewToken sampleWorld
      { sampleClient with token := some { sampleToken with Expiry := 3600000000000 } }).client.token
      = some { sampleToken with Expiry := 3600000000000 } :=
  ⟨by decide, requestNewToken_fast_path sampleWorld
    { sampleClient with token := some { sampleToken with Expiry := 3600000000000 } }
    { sampleToken with Expiry := 3600000000000 } rfl (by decide)⟩

/-! ## Properties of `sendRequest` -/

theorem GoError.is_self (e : GoError) : e.Is e = true := by
  cases e <;> simp [GoError.Is]

theorem tokenRequest_getHeader_accept (w : World) (c : BlackboardClient) :
    (tokenRequest w c).getHeader "Accept" = none := by
  simp [tokenRequest, Request.SetBasicAuth, Request.setHeader, Request.getHeader, NewRequest]

theorem businessRequest_getHeader_accept (c : BlackboardClient) (tok : Token)
    (method path : String) (body : Option String) :
    (businessRequest c tok method path body).getHeader "Accept" = some "application/json" := by
  unfold businessRequest
  split <;> simp [Request.setHeader, Request.getHeader, NewRequest]

theorem tokenRequest_ne_businessRequest (w : World) (c : BlackboardClient) (tok : Token)
    (method path : String) (body : Option String) :
    tokenRequest w c ≠ businessRequest c tok method path body := by
  intro h
  have h1 := tokenRequest_getHeader_accept w c
  rw [h, businessRequest_getHeader_accept] at h1
  simp at h1

/-- C10: when the shared token is unusable at the expiry check of `sendRequest`
and `requestNewToken` fails with the error `e`, `sendRequest` returns no
response and the error `auth failure: ` wrapping `e` (`errors.Unwrap` gives `e`,
`errors.Is` finds `e`, the message is `auth failure: ` followed by that of `e`);
its effects are those of `requestNewToken`, every request handed to the
transport is the token request, and no business request is among them. -/
theorem sendRequest_auth_failure (w : World) (c : BlackboardClient) (method path : String)
    (body : Option String) (e : GoError) (hexp : IsExpired c.token w.nowSend = true)
    (hfail : (requestNewToken w c).ret = some e) :
    ∃ err, (sendRequest w c method path body).ret = .ret (.error err) ∧
      err.Unwrap = some e ∧ err.Is e = true ∧ err.Error = "auth failure: " ++ e.Error ∧
      (sendRequest w c method path body).trace = (requestNewToken w c).trace ∧
      (∀ req, Effect.httpDo req ∈ (sendRequest w c method path body).trace →
        req = tokenRequest w c) ∧
      (∀ tok, Effect.httpDo (businessRequest c tok method path body) ∉
        (sendRequest w c method path body).trace) ∧
      (sendRequest w c method path body).client = c := by
  have hsend : sendRequest w c method path body =
      ⟨.ret (.error (.wrap "auth failure: " e)), (requestNewToken w c).client,
        (requestNewToken w c).trace⟩ := by
    unfold sendRequest
    simp [hexp, hfail]
  obtain ⟨hcl, htr⟩ := requestNewToken_error_frame w c e hfail
  have hall : ∀ req, Effect.httpDo req ∈ (requestNewToken w c).trace →
      req = tokenRequest w c := by
    intro req hmem
    rcases htr with h | h
    · rw [h] at hmem
      simp at hmem
    · rw [h] at hmem
      simpa using hmem
  refine ⟨.wrap "auth failure: " e, by rw [hsend], rfl, ?_, rfl, by rw [hsend], ?_, ?_, ?_⟩
  · simp [GoError.Is, GoError.is_self]
  · rw [hsend]
    exact hall
  · intro tok hmem
    rw [hsend] at hmem
    exact tokenRequest_ne_businessRequest w c tok method path body (hall _ hmem).symm
  · rw [hsend]
    exact hcl

/-- Instance of C10 at the 403 answer of `forbiddenWorld`. -/
theorem sendRequest_auth_failure_witness :
    IsExpired sampleClient.token forbiddenWorld.nowSend = true ∧
    (requestNewToken forbiddenWorld sampleClient).ret = some (.new
      "failed to get token: status 403, body: \x7b\"error\":\"invalid_client\"\x7d") ∧
    ∃ err, (sendRequest forbiddenWorld sampleClient "GET" "/users" none).ret =
        .ret (.error err) ∧
      err.Unwrap = some (.new
        "failed to get token: status 403, body: \x7b\"error\":\"invalid_client\"\x7d") ∧
      err.Is (.new
        "failed to get token: status 403, body: \x7b\"error\":\"invalid_client\"\x7d") = true ∧
      err.Error = "auth failure: " ++ GoError.Error (.new
        "failed to get token: status 403, body: \x7b\"error\":\"invalid_client\"\x7d") ∧
      (sendRequest forbiddenWorld sampleClient "GET" "/users" none).trace =
        (requestNewToken forbiddenWorld sampleClient).trace ∧
      (∀ req, Effect.httpDo req ∈
          (sendRequest forbiddenWorld sampleClient "GET" "/users" none).trace →
        req = tokenRequest forbiddenWorld sampleClient) ∧
      (∀ tok, Effect.httpDo (businessRequest sampleClient tok "GET" "/users" none) ∉
        (sendRequest forbiddenWorld sampleClient "GET" "/users" none).trace) ∧
      (sendRequest forbiddenWorld sampleClient "GET" "/users" none).client = sampleClient :=
  ⟨by decide, by decide, sendRequest_auth_failure forbiddenWorld sampleClient "GET" "/users"
    none _ (by decide) (by decide)⟩

/-! ## The token step and the business request -/

theorem sendRequest_eq (w : World) (c : BlackboardClient) (method path : String)
    (body : Option String) :
    sendRequest w c method path body =
      match (tokenStep w c).ret with
      | some err =>
        ⟨.ret (.error (.wrap "auth failure: " err)), (tokenStep w c).client,
          (tokenStep w c).trace⟩
      | none =>
        match w.newRequest method (c.BaseURL ++ path) with
        | some err =>
          ⟨.ret (.error (.wrap "creating request: " err)), (tokenStep w c).client,
            (tokenStep w c).trace⟩
        | none =>
          match (tokenStep w c).client.token with
          | none =>
            ⟨.panic "runtime error: invalid memory address or nil pointer dereference",
              (tokenStep w c).client, (tokenStep w c).trace⟩
          | some tok =>
            ⟨.ret (w.httpDo (businessRequest c tok method path body)), (tokenStep w c).client,
              (tokenStep w c).trace ++ [.httpDo (businessRequest c tok method path body)]⟩ :=
  rfl

theorem saveToken_trace_no_http (w : World) (c : BlackboardClient) (t : Token)
    (req : Request) : Effect.httpDo req ∉ (saveToken w c t).trace := by
  unfold saveToken
  rcases h1 : w.mkdirAll (w.filepathDir c.tokenFile) with _ | e
  · rcases h2 : w.marshalToken t with e | data
    · simp [h1, h2]
    · rcases h3 : w.writeFile c.tokenFile data with _ | e
      · simp [h1, h2, h3]
      · simp [h1, h2, h3]
  · simp [h1]

theorem requestNewToken_trace_http (w : World) (c : BlackboardClient) (req : Request)
    (hmem : Effect.httpDo req ∈ (requestNewToken w c).trace) : req = tokenRequest w c := by
  rcases hr : (requestNewToken w c).ret with _ | e
  · by_cases hexp : IsExpired c.token w.nowCheck = false
    · rw [requestNewToken_of_usable w c hexp] at hmem
      simp at hmem
    · have hexp1 : IsExpired c.token w.nowCheck = true := by simpa using hexp
      obtain ⟨resp, decoded, hreq, hdo, h200, hdec, hacc⟩ :=
        requestNewToken_ret_none_inv w c hexp1 hr
      unfold requestNewToken at hmem
      simp only [hexp1, hreq, hdo, h200, hdec] at hmem
      simp only [Bool.not_true, Bool.and_false, Bool.false_eq_true, if_false, ne_eq,
        not_true_eq_false, hacc] at hmem
      have hno := saveToken_trace_no_http w c
        { decoded with Expiry := w.nowIssue + wrapInt64 (decoded.ExpiresIn * second) }
      rcases hs : (saveToken w c
        { decoded with Expiry := w.nowIssue + wrapInt64 (decoded.ExpiresIn * second) }).ret
        with _ | e
      · simpa [hs, hno req] using hmem
      · simpa [hs, hno req] using hmem
  · rcases (requestNewToken_error_frame w c e hr).2 with h | h
    · rw [h] at hmem
      simp at hmem
    · rw [h] at hmem
      simpa using hmem

theorem tokenStep_trace_http (w : World) (c : BlackboardClient) (req : Request)
    (hmem : Effect.httpDo req ∈ (tokenStep w c).trace) : req = tokenRequest w c := by
  unfold tokenStep at hmem
  split at hmem
  · exact requestNewToken_trace_http w c req hmem
  · simp at hmem

theorem requestNewToken_installs (w : World) (c : BlackboardClient) (resp : Response)
    (decoded : Token) (hexp : IsExpired c.token w.nowCheck = true)
    (hreq : w.newRequest "POST" (c.BaseURL ++ w.tokenEndpoint) = none)
    (hdo : w.httpDo (tokenRequest w c) = .ok resp) (h200 : resp.StatusCode = 200)
    (hdec : w.decodeToken resp.Body = .ok decoded) (hacc : decoded.AccessToken ≠ "")
    (hsave : (saveToken w c (issuedToken w decoded)).ret = none) :
    (requestNewToken w c).client.token = some (issuedToken w decoded) := by
  have hcl := (requestNewToken_exchanged w c resp decoded hexp hreq hdo h200 hdec hacc).2
  rw [saveToken_client, if_pos hsave] at hcl
  rw [hcl]

theorem tokenStep_ok_cases (w : World) (c : BlackboardClient)
    (hret : (tokenStep w c).ret = none) (hsave : ∀ t, (saveToken w c t).ret = none)
    (hlife : ∀ body decoded, w.decodeToken body = .ok decoded →
      2 * minute ≤ wrapInt64 (decoded.ExpiresIn * second)) :
    ∃ used, (tokenStep w c).client.token = some used ∧
      ((IsExpired c.token w.nowSend = false ∧ IsExpired (some used) w.nowSend = false) ∨
       (IsExpired c.token w.nowSend = true ∧ IsExpired c.token w.nowCheck = false ∧
          IsExpired (some used) w.nowCheck = false) ∨
       (IsExpired c.token w.nowSend = true ∧ IsExpired c.token w.nowCheck = true ∧
          IsExpired (some used) w.nowIssue = false)) := by
  by_cases hs : IsExpired c.token w.nowSend = false
  · obtain ⟨tok, htok, -, -⟩ := (isExpired_false_iff _ _).1 hs
    have hs2 : IsExpired (some tok) w.nowSend = false := htok ▸ hs
    have hstep : tokenStep w c = ⟨none, c, []⟩ := by
      unfold tokenStep
      simp [hs2, htok]
    rw [hstep]
    exact ⟨tok, htok, Or.inl ⟨hs, htok ▸ hs⟩⟩
  · have hs1 : IsExpired c.token w.nowSend = true := by simpa using hs
    have hstep : tokenStep w c = requestNewToken w c := by
      unfold tokenStep
      simp [hs1]
    rw [hstep] at hret ⊢
    by_cases hexp : IsExpired c.token w.nowCheck = false
    · obtain ⟨tok, htok, -, -⟩ := (isExpired_false_iff _ _).1 hexp
      rw [requestNewToken_of_usable w c hexp]
      exact ⟨tok, htok, Or.inr (Or.inl ⟨hs1, hexp, htok ▸ hexp⟩)⟩
    · have hexp1 : IsExpired c.token w.nowCheck = true := by simpa using hexp
      obtain ⟨resp, decoded, hreq, hdo, h200, hdec, hacc⟩ :=
        requestNewToken_ret_none_inv w c hexp1 hret
      refine ⟨issuedToken w decoded,
        requestNewToken_installs w c resp decoded hexp1 hreq hdo h200 hdec hacc (hsave _),
        Or.inr (Or.inr ⟨hs1, hexp1, ?_⟩)⟩
      rw [isExpired_false_iff]
      refine ⟨_, rfl, hacc, ?_⟩
      have := hlife _ _ hdec
      simp only [issuedToken]
      omega

theorem businessRequest_url (c : BlackboardClient) (tok : Token) (method path : String)
    (body : Option String) : (businessRequest c tok method path body).URL = c.BaseURL ++ path := by
  unfold businessRequest
  split <;> simp [Request.setHeader, NewRequest]

theorem businessRequest_getHeader_authorization (c : BlackboardClient) (tok : Token)
    (method path : String) (body : Option String) :
    (businessRequest c tok method path body).getHeader "Authorization" =
      some ("Bearer " ++ tok.AccessToken) := by
  unfold businessRequest
  split <;> simp [Request.setHeader, Request.getHeader, NewRequest]

theorem businessRequest_getHeader_contentType (c : BlackboardClient) (tok : Token)
    (method path : String) (body : Option String) :
    (businessRequest c tok method path body).getHeader "Content-Type" =
      if body.isSome && (method == "POST" || method == "PUT" || method == "PATCH") then
        some "application/json"
      else none := by
  unfold businessRequest
  split <;> simp [Request.setHeader, Request.getHeader, NewRequest]

theorem sendRequest_trace_http (w : World) (c : BlackboardClient) (method path : String)
    (body : Option String) (req : Request)
    (hmem : Effect.httpDo req ∈ (sendRequest w c method path body).trace) :
    req = tokenRequest w c ∨
      ∃ used, (sendRequest w c method path body).client.token = some used ∧
        req = businessRequest c used method path body ∧
        (sendRequest w c method path body).trace =
          (tokenStep w c).trace ++ [.httpDo (businessRequest c used method path body)] ∧
        (tokenStep w c).ret = none ∧ (tokenStep w c).client.token = some used := by
  rw [sendRequest_eq] at hmem ⊢
  rcases hr : (tokenStep w c).ret with _ | e
  · rcases hn : w.newRequest method (c.BaseURL ++ path) with _ | e
    · rcases ht : (tokenStep w c).client.token with _ | used
      · simp only [hr, hn, ht] at hmem
        exact Or.inl (tokenStep_trace_http w c req hmem)
      · simp only [hr, hn, ht, List.mem_append, List.mem_singleton, Effect.httpDo.injEq] at hmem
        rcases hmem with h | h
        · exact Or.inl (tokenStep_trace_http w c req h)
        · exact Or.inr ⟨used, by simp only [hr, hn, ht], h, by simp only [hr, hn, ht], rfl, rfl⟩
    · simp only [hr, hn] at hmem
      exact Or.inl (tokenStep_trace_http w c req hmem)
  · simp only [hr] at hmem
    exact Or.inl (tokenStep_trace_http w c req hmem)

/-- C11, as stated, fails: the client holds no token, the server reports a
lifetime of 60 seconds, exchange and save succeed, and `sendRequest` hands the
business request with `Authorization: Bearer abc` to the transport although that
token was expired when the token step finished, at the instant it was issued. -/
theorem sendRequest_sends_expired_token :
    (sendRequest shortLivedWorld sampleClient "GET" "/users" none).client.token =
      some { sampleToken with ExpiresIn := 60, Expiry := 60000000000 } ∧
    (sendRequest shortLivedWorld sampleClient "GET" "/users" none).trace.getLast? =
      some (.httpDo (businessRequest sampleClient
        { sampleToken with ExpiresIn := 60, Expiry := 60000000000 } "GET" "/users" none)) ∧
    (businessRequest sampleClient { sampleToken with ExpiresIn := 60, Expiry := 60000000000 }
      "GET" "/users" none).getHeader "Authorization" = some "Bearer abc" ∧
    IsExpired (some { sampleToken with ExpiresIn := 60, Expiry := 60000000000 })
      shortLivedWorld.nowIssue = true :=
  ⟨by decide, by decide, by decide, by decide⟩

/-- C11, amended: whenever `sendRequest` hands a business request to the
transport, the token whose access credential is in its `Authorization` header is
the shared token left by the token step and is non-nil; and in a world where
saving to the cache file does not fail and every lifetime the server reports is
at least two minutes, that token was not expired at the clock reading the token
step took last: `nowSend` when no refresh was called for, `nowCheck` on the fast
path of `requestNewToken`, the issue instant after an exchange. -/
theorem sendRequest_token_usable (w : World) (c : BlackboardClient) (method path : String)
    (body : Option String) (tok : Token)
    (hsent : Effect.httpDo (businessRequest c tok method path body) ∈
      (sendRequest w c method path body).trace)
    (hsave : ∀ t, (saveToken w c t).ret = none)
    (hlife : ∀ data decoded, w.decodeToken data = .ok decoded →
      2 * minute ≤ wrapInt64 (decoded.ExpiresIn * second)) :
    ∃ used, (sendRequest w c method path body).client.token = some used ∧
      (sendRequest w c method path body).trace.getLast? =
        some (.httpDo (businessRequest c used method path body)) ∧
      (businessRequest c used method path body).getHeader "Authorization" =
        some ("Bearer " ++ used.AccessToken) ∧
      ((IsExpired c.token w.nowSend = false ∧ IsExpired (some used) w.nowSend = false) ∨
       (IsExpired c.token w.nowSend = true ∧ IsExpired c.token w.nowCheck = false ∧
          IsExpired (some used) w.nowCheck = false) ∨
       (IsExpired c.token w.nowSend = true ∧ IsExpired c.token w.nowCheck = true ∧
          IsExpired (some used) w.nowIssue = false)) := by
  rcases sendRequest_trace_http w c method path body _ hsent with h | h
  · exact absurd h.symm (tokenRequest_ne_businessRequest w c tok method path body)
  · obtain ⟨used, hcl, -, htr, hret, hstep⟩ := h
    obtain ⟨used2, hstep2, hcases⟩ := tokenStep_ok_cases w c hret hsave hlife
    have hu : used2 = used := by
      rw [hstep] at hstep2
      exact (Option.some.inj hstep2).symm
    subst hu
    refine ⟨used2, hcl, ?_, businessRequest_getHeader_authorization _ _ _ _ _, hcases⟩
    rw [htr]
    simp

/-- Instance of the amended C11 at `sampleWorld`: a lifetime of 3600 seconds, the
save succeeds. -/
theorem sendRequest_token_usable_witness :
    Effect.httpDo (businessRequest sampleClient sampleToken "GET" "/users" none) ∈
      (sendRequest sampleWorld sampleClient "GET" "/users" none).trace ∧
    ∃ used, (sendRequest sampleWorld sampleClient "GET" "/users" none).client.token =
        some used ∧
      (sendRequest sampleWorld sampleClient "GET" "/users" none).trace.getLast? =
        some (.httpDo (businessRequest sampleClient used "GET" "/users" none)) ∧
      (businessRequest sampleClient used "GET" "/users" none).getHeader "Authorization" =
        some ("Bearer " ++ used.AccessToken) ∧
      ((IsExpired sampleClient.token sampleWorld.nowSend = false ∧
          IsExpired (some used) sampleWorld.nowSend = false) ∨
       (IsExpired sampleClient.token sampleWorld.nowSend = true ∧
          IsExpired sampleClient.token sampleWorld.nowCheck = false ∧
          IsExpired (some used) sampleWorld.nowCheck = false) ∨
       (IsExpired sampleClient.token sampleWorld.nowSend = true ∧
          IsExpired sampleClient.token sampleWorld.nowCheck = true ∧
          IsExpired (some used) sampleWorld.nowIssue = false)) :=
  have hsent : Effect.httpDo (businessRequest sampleClient sampleToken "GET" "/users" none) ∈
      (sendRequest sampleWorld sampleClient "GET" "/users" none).trace := by decide
  have hlife : ∀ data decoded, sampleWorld.decodeToken data = .ok decoded →
      2 * minute ≤ wrapInt64 (decoded.ExpiresIn * second) := by
    intro data decoded h
    have hd : decoded = sampleToken := by
      simpa [sampleWorld] using h.symm
    subst hd
    decide
  ⟨hsent, sendRequest_token_usable sampleWorld sampleClient "GET" "/users" none sampleToken
    hsent (fun _ => rfl) hlife⟩

/-- C12, Scenario D: when the shared token is usable at the expiry check of
`sendRequest`, with access credential `a`, and the business request can be built
from the method and the URL, the only effect of `sendRequest` is one request
handed to the transport: the business request, addressed to `BaseURL` followed
by the path, with the header `Authorization: Bearer a`. No token request is sent,
the answer of the transport is returned and the client is unchanged. -/
theorem sendRequest_usable_token (w : World) (c : BlackboardClient) (method path : String)
    (body : Option String) (tok : Token) (htok : c.token = some tok)
    (huse : IsExpired c.token w.nowSend = false)
    (hnr : w.newRequest method (c.BaseURL ++ path) = none) :
    (sendRequest w c method path body).trace =
      [.httpDo (businessRequest c tok method path body)] ∧
    (businessRequest c tok method path body).URL = c.BaseURL ++ path ∧
    (businessRequest c tok method path body).getHeader "Authorization" =
      some ("Bearer " ++ tok.AccessToken) ∧
    Effect.httpDo (tokenRequest w c) ∉ (sendRequest w c method path body).trace ∧
    (sendRequest w c method path body).ret =
      .ret (w.httpDo (businessRequest c tok method path body)) ∧
    (sendRequest w c method path body).client = c := by
  have huse2 : IsExpired (some tok) w.nowSend = false := htok ▸ huse
  have hstep : tokenStep w c = ⟨none, c, []⟩ := by
    unfold tokenStep
    simp [huse2, htok]
  have hsend : sendRequest w c method path body =
      ⟨.ret (w.httpDo (businessRequest c tok method path body)), c,
        [.httpDo (businessRequest c tok method path body)]⟩ := by
    rw [sendRequest_eq, hstep]
    simp only [hnr, htok, List.nil_append]
  rw [hsend]
  refine ⟨rfl, businessRequest_url _ _ _ _ _,
    businessRequest_getHeader_authorization _ _ _ _ _, ?_, rfl, rfl⟩
  simp only [List.mem_singleton, Effect.httpDo.injEq]
  exact tokenRequest_ne_businessRequest w c tok method path body

/-- Instance of C12 at a client that holds `cachedToken`, usable at instant `0`. -/
theorem sendRequest_usable_token_witness :
    IsExpired (some cachedToken) sampleWorld.nowSend = false ∧
    sampleWorld.newRequest "GET" (sampleClient.BaseURL ++ "/users") = none ∧
    (sendRequest sampleWorld { sampleClient with token := some cachedToken } "GET" "/users"
      none).trace =
      [.httpDo (businessRequest { sampleClient with token := some cachedToken } cachedToken
        "GET" "/users" none)] ∧
    (businessRequest { sampleClient with token := some cachedToken } cachedToken
      "GET" "/users" none).URL = "https://bb.example.edu/users" ∧
    (businessRequest { sampleClient with token := some cachedToken } cachedToken
      "GET" "/users" none).getHeader "Authorization" = some "Bearer abc" := by
  obtain ⟨h1, h2, h3, -⟩ := sendRequest_usable_token sampleWorld
    { sampleClient with token := some cachedToken } "GET" "/users" none cachedToken rfl
    (by decide) rfl
  exact ⟨by decide, rfl, h1, h2, h3⟩

/-- C13, as stated, fails: a `POST` whose body reader is present but holds no byte
is sent with `Content-Type: application/json`, because the code tests
`body != nil`, not the length of the body. -/
theorem sendRequest_empty_body_content_type :
    (sendRequest sampleWorld { sampleClient with token := some cachedToken } "POST" "/users"
      (some "")).trace =
      [.httpDo (businessRequest { sampleClient with token := some cachedToken } cachedToken
        "POST" "/users" (some ""))] ∧
    (businessRequest { sampleClient with token := some cachedToken } cachedToken
      "POST" "/users" (some "")).Body = some "" ∧
    (businessRequest { sampleClient with token := some cachedToken } cachedToken
      "POST" "/users" (some "")).getHeader "Content-Type" = some "application/json" :=
  ⟨by decide, by decide, by decide⟩

/-- C13, amended: every business request `sendRequest` hands to the transport is
`businessRequest c used method path body` for the shared token `used`; its
`Accept` header is `application/json`, and its `Content-Type` header is
`application/json` if and only if the method is `POST`, `PUT` or `PATCH` and the
body reader is not nil, whatever the number of bytes it holds; otherwise no
`Content-Type` is set. So the requests of `Get` and `Delete` carry none and those
of `Post`, `Put` and `Patch` always carry it. -/
theorem sendRequest_headers (w : World) (c : BlackboardClient) (method path : String)
    (body : Option String) :
    (∀ req, Effect.httpDo req ∈ (sendRequest w c method path body).trace →
      req ≠ tokenRequest w c → ∃ used, req = businessRequest c used method path body) ∧
    (∀ used, (businessRequest c used method path body).getHeader "Accept" =
      some "application/json") ∧
    (∀ used, (businessRequest c used method path body).getHeader "Content-Type" =
        some "application/json" ↔
      (method = "POST" ∨ method = "PUT" ∨ method = "PATCH") ∧ body ≠ none) ∧
    (∀ used, (businessRequest c used method path body).getHeader "Content-Type" = none ↔
      ¬ ((method = "POST" ∨ method = "PUT" ∨ method = "PATCH") ∧ body ≠ none)) ∧
    (∀ used p, (businessRequest c used "GET" p none).getHeader "Content-Type" = none ∧
      (businessRequest c used "DELETE" p none).getHeader "Content-Type" = none) ∧
    (∀ used p data,
      (businessRequest c used "POST" p (some data)).getHeader "Content-Type" =
        some "application/json" ∧
      (businessRequest c used "PUT" p (some data)).getHeader "Content-Type" =
        some "application/json" ∧
      (businessRequest c used "PATCH" p (some data)).getHeader "Content-Type" =
        some "application/json") := by
  refine ⟨?_, fun used => businessRequest_getHeader_accept _ _ _ _ _, ?_, ?_, ?_, ?_⟩
  · intro req hmem hne
    rcases sendRequest_trace_http w c method path body req hmem with h | ⟨used, -, h, -⟩
    · exact absurd h hne
    · exact ⟨used, h⟩
  · intro used
    rw [businessRequest_getHeader_contentType]
    cases body <;> by_cases h1 : method = "POST" <;> by_cases h2 : method = "PUT" <;>
      by_cases h3 : method = "PATCH" <;> simp [h1, h2, h3]
  · intro used
    rw [businessRequest_getHeader_contentType]
    cases body <;> by_cases h1 : method = "POST" <;> by_cases h2 : method = "PUT" <;>
      by_cases h3 : method = "PATCH" <;> simp [h1, h2, h3]
  · intro used p
    simp [businessRequest_getHeader_contentType]
  · intro used p data
    simp [businessRequest_getHeader_contentType]

/-- Instance of the amended C13 at a `PATCH` and at a `GET` of `sampleWorld`. -/
theorem sendRequest_headers_witness :
    (businessRequest sampleClient cachedToken "PATCH" "/users" (some "\x7b\x7d")).getHeader
      "Content-Type" = some "application/json" ∧
    (businessRequest sampleClient cachedToken "GET" "/users" none).getHeader
      "Content-Type" = none :=
  ⟨((sendRequest_headers sampleWorld sampleClient "PATCH" "/users" (some "\x7b\x7d")).2.2.1
      cachedToken).2 ⟨Or.inr (Or.inr rfl), by simp⟩,
   ((sendRequest_headers sampleWorld sampleClient "GET" "/users" none).2.2.2.1
      cachedToken).2 (by simp)⟩

theorem Get_eq (w : World) (c : BlackboardClient) (path : String) :
    Get w c path = sendRequest w c "GET" path none := rfl

theorem Delete_eq (w : World) (c : BlackboardClient) (path : String) :
    Delete w c path = sendRequest w c "DELETE" path none := rfl

theorem Post_eq (w : World) (c : BlackboardClient) (path data : String) :
    Post w c path (.ok data) = sendRequest w c "POST" path (some data) := rfl

theorem Put_eq (w : World) (c : BlackboardClient) (path data : String) :
    Put w c path (.ok data) = sendRequest w c "PUT" path (some data) := rfl

theorem Patch_eq (w : World) (c : BlackboardClient) (path data : String) :
    Patch w c path (.ok data) = sendRequest w c "PATCH" path (some data) := rfl

/-! ## The expiry of an issued token -/

theorem wrapInt64_range (x : Int) : -(2 : Int) ^ 63 ≤ wrapInt64 x ∧ wrapInt64 x < 2 ^ 63 := by
  unfold wrapInt64
  omega

theorem wrapInt64_congr (x : Int) : (wrapInt64 x - x) % 2 ^ 64 = 0 := by
  unfold wrapInt64
  omega

theorem wrapInt64_of_range (x : Int) (h1 : -(2 : Int) ^ 63 ≤ x) (h2 : x < 2 ^ 63) :
    wrapInt64 x = x := by
  unfold wrapInt64
  omega

/-- C14, Scenario A: the token made of the exchange answer
`{"access_token":"abc","token_type":"bearer","expires_in":3600}` at the issue
instant `t0` expires at `t0` plus 60 minutes; it is not expired at `t0`, not
expired at any instant from `t0` to less than 58 minutes later, and expired 59
minutes after `t0`. It is the token `requestNewToken` installs when the shared
token was unusable and the save succeeds. -/
theorem scenario_a_lifetime (w : World) (decoded : Token) (hacc : decoded.AccessToken = "abc")
    (hlife : decoded.ExpiresIn = 3600) :
    (issuedToken w decoded).Expiry = w.nowIssue + 60 * minute ∧
    IsExpired (some (issuedToken w decoded)) w.nowIssue = false ∧
    (∀ t, w.nowIssue ≤ t → t < w.nowIssue + 58 * minute →
      IsExpired (some (issuedToken w decoded)) t = false) ∧
    IsExpired (some (issuedToken w decoded)) (w.nowIssue + 59 * minute) = true ∧
    (∀ c resp, IsExpired c.token w.nowCheck = true →
      w.newRequest "POST" (c.BaseURL ++ w.tokenEndpoint) = none →
      w.httpDo (tokenRequest w c) = .ok resp → resp.StatusCode = 200 →
      w.decodeToken resp.Body = .ok decoded →
      (saveToken w c (issuedToken w decoded)).ret = none →
      (requestNewToken w c).client.token = some (issuedToken w decoded)) := by
  have hne : (issuedToken w decoded).AccessToken ≠ "" := by
    simp [issuedToken, hacc]
  have hexpiry : (issuedToken w decoded).Expiry = w.nowIssue + 60 * minute := by
    have h3600 : wrapInt64 (3600 * second) = 60 * minute := by decide
    simp only [issuedToken, hlife, h3600]
  refine ⟨hexpiry, ?_, ?_, ?_, ?_⟩
  · rw [isExpired_some _ _ hne, hexpiry]
    simp only [minute, second]
    simp
  · intro t _ h2
    rw [isExpired_some _ _ hne, hexpiry]
    simp only [minute, second] at h2 ⊢
    simp only [decide_eq_false_iff_not, not_lt, ge_iff_le, gt_iff_lt]
    omega
  · rw [isExpired_some _ _ hne, hexpiry]
    simp only [minute, second]
    simp only [decide_eq_true_eq, gt_iff_lt]
    omega
  · intro c resp hexp hreq hdo h200 hdec hsave
    exact requestNewToken_installs w c resp decoded hexp hreq hdo h200 hdec
      (by rw [hacc]; decide) hsave

/-- Instance of C14 at `sampleWorld`, the issue instant being `0`. -/
theorem scenario_a_lifetime_witness :
    sampleToken.AccessToken = "abc" ∧ sampleToken.ExpiresIn = 3600 ∧
    IsExpired (some (issuedToken sampleWorld sampleToken)) 0 = false ∧
    IsExpired (some (issuedToken sampleWorld sampleToken)) (0 + 59 * minute) = true ∧
    (requestNewToken sampleWorld sampleClient).client.token =
      some (issuedToken sampleWorld sampleToken) := by
  obtain ⟨-, h2, -, h4, h5⟩ := scenario_a_lifetime sampleWorld sampleToken rfl rfl
  exact ⟨rfl, rfl, h2, h4, h5 sampleClient
    ⟨200, "\x7b\"access_token\":\"abc\",\"token_type\":\"bearer\",\"expires_in\":3600\x7d"⟩
    (by decide) rfl rfl rfl rfl (by decide)⟩

/-- C15: for every lifetime `L` the server reports and every issue instant, the
expiry `requestNewToken` computes is the issue instant plus the `int64` value of
`L * 10^9` nanoseconds, that is the one number from `-2^63` to `2^63 - 1` congruent
to `L * 10^9` modulo `2^64`; when `L * 10^9` itself is in that range (`L` from
`-9223372036` to `9223372036`) the expiry is exactly the issue instant plus `L`
seconds. -/
theorem issuedToken_expiry (w : World) (decoded : Token) :
    (issuedToken w decoded).Expiry = w.nowIssue + wrapInt64 (decoded.ExpiresIn * second) ∧
    -(2 : Int) ^ 63 ≤ wrapInt64 (decoded.ExpiresIn * second) ∧
    wrapInt64 (decoded.ExpiresIn * second) < 2 ^ 63 ∧
    (wrapInt64 (decoded.ExpiresIn * second) - decoded.ExpiresIn * second) % 2 ^ 64 = 0 ∧
    (-9223372036 ≤ decoded.ExpiresIn ∧ decoded.ExpiresIn ≤ 9223372036 →
      (issuedToken w decoded).Expiry = w.nowIssue + decoded.ExpiresIn * second) ∧
    (∀ c resp, IsExpired c.token w.nowCheck = true →
      w.newRequest "POST" (c.BaseURL ++ w.tokenEndpoint) = none →
      w.httpDo (tokenRequest w c) = .ok resp → resp.StatusCode = 200 →
      w.decodeToken resp.Body = .ok decoded → decoded.AccessToken ≠ "" →
      (saveToken w c (issuedToken w decoded)).ret = none →
      ∃ tok, (requestNewToken w c).client.token = some tok ∧
        tok.Expiry = w.nowIssue + wrapInt64 (decoded.ExpiresIn * second)) := by
  refine ⟨rfl, (wrapInt64_range _).1, (wrapInt64_range _).2, wrapInt64_congr _, ?_, ?_⟩
  · intro h
    have hw : wrapInt64 (decoded.ExpiresIn * second) = decoded.ExpiresIn * second := by
      apply wrapInt64_of_range
      · simp only [second]
        omega
      · simp only [second]
        omega
    simp only [issuedToken, hw]
  · intro c resp hexp hreq hdo h200 hdec hacc hsave
    exact ⟨_, requestNewToken_installs w c resp decoded hexp hreq hdo h200 hdec hacc hsave, rfl⟩

/-- Instance of C15 at a lifetime of `10^10` seconds, where the `int64` product
wraps: the expiry is about 268 years before the issue instant. -/
theorem issuedToken_expiry_witness :
    (issuedToken sampleWorld { sampleToken with ExpiresIn := 10000000000 }).Expiry =
      0 + wrapInt64 (10000000000 * second) ∧
    wrapInt64 (10000000000 * second) = -8446744073709551616 :=
  ⟨(issuedToken_expiry sampleWorld { sampleToken with ExpiresIn := 10000000000 }).1, by decide⟩

/-! ## The cached token file -/

theorem disk_after_saveToken (w : World) (d : Disk) (c : BlackboardClient) (t : Token)
    (hsave : (saveToken w c t).ret = none) :
    ∃ data, w.marshalToken t = .ok data ∧
      (Disk.after w d (saveToken w c t).trace).read c.tokenFile = .opened data := by
  unfold saveToken at hsave ⊢
  rcases h1 : w.mkdirAll (w.filepathDir c.tokenFile) with _ | e
  · rcases h2 : w.marshalToken t with e | data
    · simp [h1, h2] at hsave
    · rcases h3 : w.writeFile c.tokenFile data with _ | e
      · refine ⟨data, rfl, ?_⟩
        simp [h1, h3, Disk.after, Disk.apply, Disk.write]
      · simp [h1, h2, h3] at hsave
  · simp [h1] at hsave

theorem loadToken_opened (w : World) (d : Disk) (now : Int) (c : BlackboardClient)
    (data : String) (t : Token) (hread : d.read c.tokenFile = .opened data)
    (hdec : w.decodeToken data = .ok t) :
    loadToken w d now c =
      if IsExpired (some t) now then ⟨some ErrTokenExpired, c, []⟩
      else ⟨none, { c with token := some t }, []⟩ := by
  unfold loadToken
  simp only [hread, hdec]

/-- C16, as stated, fails: `cachedToken`, which expires one hour after instant
`0`, is saved with success, the codec reads the file back as the same token, and
`loadToken` on a fresh client with the same token file, one hour later, returns
`ErrTokenExpired` and installs nothing. -/
theorem loadToken_after_save_expired :
    (saveToken cacheWorld sampleClient cachedToken).ret = none ∧
    (Disk.after cacheWorld emptyDisk
      (saveToken cacheWorld sampleClient cachedToken).trace).read sampleClient.tokenFile =
      .opened
        ("\x7b\"access_token\":\"abc\",\"token_type\":\"bearer\",\"expires_in\":3600," ++
          "\"expiry\":\"1970-01-01T01:00:00Z\"\x7d") ∧
    cacheWorld.decodeToken
        ("\x7b\"access_token\":\"abc\",\"token_type\":\"bearer\",\"expires_in\":3600," ++
          "\"expiry\":\"1970-01-01T01:00:00Z\"\x7d") = .ok cachedToken ∧
    (loadToken cacheWorld
      (Disk.after cacheWorld emptyDisk (saveToken cacheWorld sampleClient cachedToken).trace)
      3600000000000 sampleClient).ret = some ErrTokenExpired ∧
    (loadToken cacheWorld
      (Disk.after cacheWorld emptyDisk (saveToken cacheWorld sampleClient cachedToken).trace)
      3600000000000 sampleClient).client.token = none :=
  ⟨by decide, by decide, rfl, by decide, by decide⟩

/-- C16, amended: for every token `T`, after `saveToken(T)` succeeds, and provided
the JSON codec reads back as `T` the text it writes for `T`, `loadToken` on a
client configured with the same token file succeeds and installs a shared token
equal to `T` in all fields when `T` is not expired at the instant of the load;
when `T` is expired at that instant `loadToken` returns `ErrTokenExpired` and
leaves the client as it was. -/
theorem save_load_round_trip (w : World) (d : Disk) (now : Int) (c fresh : BlackboardClient)
    (T : Token) (hsave : (saveToken w c T).ret = none)
    (hcodec : ∀ data, w.marshalToken T = .ok data → w.decodeToken data = .ok T)
    (hfile : fresh.tokenFile = c.tokenFile) :
    (IsExpired (some T) now = false →
      (loadToken w (Disk.after w d (saveToken w c T).trace) now fresh).ret = none ∧
      (loadToken w (Disk.after w d (saveToken w c T).trace) now fresh).client.token =
        some T) ∧
    (IsExpired (some T) now = true →
      (loadToken w (Disk.after w d (saveToken w c T).trace) now fresh).ret =
        some ErrTokenExpired ∧
      (loadToken w (Disk.after w d (saveToken w c T).trace) now fresh).client = fresh) := by
  obtain ⟨data, hmar, hread⟩ := disk_after_saveToken w d c T hsave
  rw [← hfile] at hread
  rw [loadToken_opened w _ now fresh data T hread (hcodec data hmar)]
  constructor
  · intro h
    simp [h]
  · intro h
    simp [h]

/-- Instance of the amended C16: `cachedToken` saved and loaded at instant `0`. -/
theorem save_load_round_trip_witness :
    (saveToken cacheWorld sampleClient cachedToken).ret = none ∧
    IsExpired (some cachedToken) 0 = false ∧
    (loadToken cacheWorld
      (Disk.after cacheWorld emptyDisk (saveToken cacheWorld sampleClient cachedToken).trace)
      0 sampleClient).ret = none ∧
    (loadToken cacheWorld
      (Disk.after cacheWorld emptyDisk (saveToken cacheWorld sampleClient cachedToken).trace)
      0 sampleClient).client.token = some cachedToken :=
  ⟨by decide, by decide,
    (save_load_round_trip cacheWorld emptyDisk 0 sampleClient sampleClient cachedToken
      (by decide) (fun _ _ => rfl) rfl).1 (by decide)⟩

/-- C17: when the token file does not exist, `loadToken` returns exactly
`ErrTokenMissing`, which is neither `ErrTokenExpired` nor a decode error nor an
open error, and leaves the client, and so the shared token, unchanged. -/
theorem loadToken_missing (w : World) (d : Disk) (now : Int) (c : BlackboardClient)
    (err : GoError) (hmiss : d.read c.tokenFile = .notExist err) :
    (loadToken w d now c).ret = some ErrTokenMissing ∧
    (loadToken w d now c).ret ≠ some ErrTokenExpired ∧
    (∀ e, (loadToken w d now c).ret ≠ some (.wrap "failed to decode token file: " e)) ∧
    (∀ e, (loadToken w d now c).ret ≠ some (.wrap "failed to open token file: " e)) ∧
    (loadToken w d now c).client = c ∧
    (loadToken w d now c).client.token = c.token := by
  have h : loadToken w d now c = ⟨some ErrTokenMissing, c, []⟩ := by
    unfold loadToken
    simp only [hmiss]
  rw [h]
  refine ⟨rfl, ?_, ?_, ?_, rfl, rfl⟩
  · simp [ErrTokenMissing, ErrTokenExpired]
  · intro e
    simp [ErrTokenMissing]
  · intro e
    simp [ErrTokenMissing]

/-- Instance of C17 on the disk without any file. -/
theorem loadToken_missing_witness :
    emptyDisk.read sampleClient.tokenFile =
      .notExist (.new "open data/.token.json: no such file or directory") ∧
    (loadToken sampleWorld emptyDisk 0 sampleClient).ret = some ErrTokenMissing ∧
    (loadToken sampleWorld emptyDisk 0 sampleClient).client = sampleClient := by
  obtain ⟨h1, -, -, -, h5, -⟩ := loadToken_missing sampleWorld emptyDisk 0 sampleClient
    (.new "open data/.token.json: no such file or directory") (by decide)
  exact ⟨by decide, h1, h5⟩

theorem loadToken_client_frame (w : World) (d : Disk) (now : Int) (c : BlackboardClient) :
    (loadToken w d now c).client.clientID = c.clientID ∧
    (loadToken w d now c).client.clientSecret = c.clientSecret ∧
    (loadToken w d now c).client.BaseURL = c.BaseURL ∧
    (loadToken w d now c).client.tokenFile = c.tokenFile ∧
    ((loadToken w d now c).ret ≠ none → (loadToken w d now c).client = c) := by
  unfold loadToken
  rcases hr : d.read c.tokenFile with content | e | e
  · rcases hd : w.decodeToken content with e | t
    · simp [hd]
    · by_cases hx : IsExpired (some t) now = true
      · simp [hd, hx]
      · simp [hd, hx]
  · simp
  · simp

/-- C18: `NewClient` returns `ErrClientInitError` and no client if and only if
one of `clientID`, `clientSecret`, `baseURL` is the empty string; when all three
are non-empty it returns a client made of them and no error, whatever the disk
holds and so whatever `loadToken` reports; the token file is `tokenPath`, or
`data/.token.json` for an empty `tokenPath`. -/
theorem newClient_init (w : World) (d : Disk) (now : Int)
    (clientID clientSecret baseURL tokenPath : String) :
    (NewClient w d now clientID clientSecret baseURL tokenPath = .error ErrClientInitError ↔
      clientID = "" ∨ clientSecret = "" ∨ baseURL = "") ∧
    ((∃ e, NewClient w d now clientID clientSecret baseURL tokenPath = .error e) ↔
      clientID = "" ∨ clientSecret = "" ∨ baseURL = "") ∧
    (clientID ≠ "" ∧ clientSecret ≠ "" ∧ baseURL ≠ "" →
      ∃ client, NewClient w d now clientID clientSecret baseURL tokenPath = .ok client ∧
        client.clientID = clientID ∧ client.clientSecret = clientSecret ∧
        client.BaseURL = baseURL ∧
        client.tokenFile = (if tokenPath = "" then "data/.token.json" else tokenPath)) := by
  by_cases h : clientID = "" ∨ clientSecret = "" ∨ baseURL = ""
  · have hn : NewClient w d now clientID clientSecret baseURL tokenPath =
        .error ErrClientInitError := by
      unfold NewClient
      rw [if_pos h]
    refine ⟨by simp [hn, h], ⟨fun _ => h, fun _ => ⟨_, hn⟩⟩, ?_⟩
    rintro ⟨h1, h2, h3⟩
    rcases h with h | h | h
    · exact absurd h h1
    · exact absurd h h2
    · exact absurd h h3
  · have hn : NewClient w d now clientID clientSecret baseURL tokenPath =
        .ok (loadToken w d now
          { clientID := clientID, clientSecret := clientSecret, BaseURL := baseURL,
            token := none,
            tokenFile := if tokenPath = "" then "data/.token.json" else tokenPath }).client := by
      unfold NewClient
      rw [if_neg h]
    obtain ⟨f1, f2, f3, f4, -⟩ := loadToken_client_frame w d now
      { clientID := clientID, clientSecret := clientSecret, BaseURL := baseURL, token := none,
        tokenFile := if tokenPath = "" then "data/.token.json" else tokenPath }
    refine ⟨by simp [hn, h], ⟨?_, fun h' => absurd h' h⟩, fun _ => ⟨_, hn, f1, f2, f3, f4⟩⟩
    rintro ⟨e, he⟩
    rw [hn] at he
    simp at he

/-- Instance of C18: three non-empty settings, no token file on the disk. -/
theorem newClient_init_witness :
    NewClient sampleWorld emptyDisk 0 "id" "secret" "https://bb.example.edu" "" =
      .ok sampleClient ∧
    NewClient sampleWorld emptyDisk 0 "id" "" "https://bb.example.edu" "" =
      .error ErrClientInitError :=
  ⟨rfl, ((newClient_init sampleWorld emptyDisk 0 "id" "" "https://bb.example.edu" "").1).2
    (Or.inr (Or.inl rfl))⟩

/-! ## input.go -/

/-- C20: `RequiredString` returns an error if and only if the value, with leading
and trailing white space removed by `strings.TrimSpace`, is empty, and then the
string returned is empty; otherwise it returns the trimmed string with a nil
error, and that string is `OptionalString(value)`. -/
theorem requiredString_spec (TrimSpace : String → String) (value fieldName : String) :
    ((RequiredString TrimSpace value fieldName).2 ≠ none ↔ TrimSpace value = "") ∧
    (TrimSpace value = "" → RequiredString TrimSpace value fieldName =
      ("", some (.new (fieldName ++ " is required and cannot be empty or only whitespace")))) ∧
    (TrimSpace value ≠ "" →
      RequiredString TrimSpace value fieldName = (TrimSpace value, none) ∧
      (RequiredString TrimSpace value fieldName).1 = OptionalString TrimSpace value) := by
  unfold RequiredString OptionalString
  by_cases h : TrimSpace value = ""
  · simp [h]
  · simp [h]

/-- Instance of C20 at a padded user name and at a blank value. -/
theorem requiredString_spec_witness :
    RequiredString trimAsciiSpace "  bob \n" "username" = ("bob", none) ∧
    RequiredString trimAsciiSpace " \t " "username" =
      ("", some (.new "username is required and cannot be empty or only whitespace")) :=
  ⟨((requiredString_spec trimAsciiSpace "  bob \n" "username").2.2 (by decide)).1,
   (requiredString_spec trimAsciiSpace " \t " "username").2.1 (by decide)⟩

/-! ## users.go -/

theorem doesUserExist_of_response (w : World) (c : BlackboardClient) (username : String)
    (resp : Response) (hget : (Get w c (GetByUsername username)).ret = .ret (.ok resp)) :
    (DoesUserExist w c username).ret =
      if resp.StatusCode = 200 then .ret (true, none)
      else if resp.StatusCode = 404 then .ret (false, none)
      else .ret (false, some (.new ("unexpected API status: " ++ toString resp.StatusCode))) := by
  unfold DoesUserExist
  simp only [hget]
  split
  · rfl
  · split <;> rfl

theorem doesUserExist_of_error (w : World) (c : BlackboardClient) (username : String)
    (err : GoError) (hget : (Get w c (GetByUsername username)).ret = .ret (.error err)) :
    (DoesUserExist w c username).ret =
      .ret (false, some (.wrap "check user failed: " err)) := by
  unfold DoesUserExist
  simp only [hget]

/-- C21: when the lookup request of `DoesUserExist` gets a response, the call
returns `(true, nil)` exactly when the status is 200, `(false, nil)` exactly when
it is 404, and for every other status `false` with the error
`unexpected API status: <code>`. When `Get` returns an error instead, be it an
auth failure of the token step or a failure of the transport on the business
request, the call returns `false` with the error `check user failed: ` wrapping
it. -/
theorem doesUserExist_status (w : World) (c : BlackboardClient) (username : String) :
    (∀ resp, (Get w c (GetByUsername username)).ret = .ret (.ok resp) →
      ((DoesUserExist w c username).ret = .ret (true, none) ↔ resp.StatusCode = 200) ∧
      ((DoesUserExist w c username).ret = .ret (false, none) ↔ resp.StatusCode = 404) ∧
      (resp.StatusCode ≠ 200 → resp.StatusCode ≠ 404 →
        (DoesUserExist w c username).ret =
          .ret (false,
            some (.new ("unexpected API status: " ++ toString resp.StatusCode))))) ∧
    (∀ err, (Get w c (GetByUsername username)).ret = .ret (.error err) →
      (DoesUserExist w c username).ret =
        .ret (false, some (.wrap "check user failed: " err))) ∧
    (∀ e, (tokenStep w c).ret = some e →
      (DoesUserExist w c username).ret =
        .ret (false, some (.wrap "check user failed: " (.wrap "auth failure: " e)))) ∧
    (∀ used err, (tokenStep w c).ret = none →
      w.newRequest "GET" (c.BaseURL ++ GetByUsername username) = none →
      (tokenStep w c).client.token = some used →
      w.httpDo (businessRequest c used "GET" (GetByUsername username) none) = .error err →
      (DoesUserExist w c username).ret =
        .ret (false, some (.wrap "check user failed: " err))) ∧
    (∀ used resp, (tokenStep w c).ret = none →
      w.newRequest "GET" (c.BaseURL ++ GetByUsername username) = none →
      (tokenStep w c).client.token = some used →
      w.httpDo (businessRequest c used "GET" (GetByUsername username) none) = .ok resp →
      (Get w c (GetByUsername username)).ret = .ret (.ok resp)) := by
  refine ⟨?_, ?_, ?_, ?_, ?_⟩
  · intro resp hget
    rw [doesUserExist_of_response w c username resp hget]
    by_cases h200 : resp.StatusCode = 200
    · simp [h200]
    · by_cases h404 : resp.StatusCode = 404
      · simp [h404]
      · simp [h200, h404]
  · intro err hget
    exact doesUserExist_of_error w c username err hget
  · intro e he
    apply doesUserExist_of_error
    rw [Get_eq, sendRequest_eq]
    simp only [he]
  · intro used err hstep hnr htok hdo
    apply doesUserExist_of_error
    rw [Get_eq, sendRequest_eq]
    simp only [hstep, hnr, htok, hdo]
  · intro used resp hstep hnr htok hdo
    rw [Get_eq, sendRequest_eq]
    simp only [hstep, hnr, htok, hdo]

/-- Instance of C21 at the statuses 200, 404 and 500, for a client that holds a
usable token. -/
theorem doesUserExist_status_witness :
    (DoesUserExist (statusWorld 200) { sampleClient with token := some cachedToken }
      "bob").ret = .ret (true, none) ∧
    (DoesUserExist (statusWorld 404) { sampleClient with token := some cachedToken }
      "bob").ret = .ret (false, none) ∧
    (DoesUserExist (statusWorld 500) { sampleClient with token := some cachedToken }
      "bob").ret = .ret (false, some (.new "unexpected API status: 500")) :=
  ⟨(((doesUserExist_status (statusWorld 200) { sampleClient with token := some cachedToken }
      "bob").1 ⟨200, ""⟩ rfl).1).2 rfl,
   (((doesUserExist_status (statusWorld 404) { sampleClient with token := some cachedToken }
      "bob").1 ⟨404, ""⟩ rfl).2.1).2 rfl,
   ((doesUserExist_status (statusWorld 500) { sampleClient with token := some cachedToken }
      "bob").1 ⟨500, ""⟩ rfl).2.2 (by decide) (by decide)⟩

/-! ## Nil safety of `sendRequest` and monotonicity of `IsExpired` -/

/-- C22 fails on the code: the client holds no token, the exchange answers 200
with a non-empty access credential, creating the cache directory fails; the
token step ends without error, the shared token `sendRequest` then reads is
still nil, the request is built, and reading `token.AccessToken` panics. -/
theorem sendRequest_nil_token_panics :
    sampleClient.token = none ∧
    (saveToken readOnlyWorld sampleClient (issuedToken readOnlyWorld sampleToken)).ret =
      some (.wrap "failed to create token directory: "
        (.new "mkdir data: permission denied")) ∧
    (tokenStep readOnlyWorld sampleClient).ret = none ∧
    (tokenStep readOnlyWorld sampleClient).client.token = none ∧
    readOnlyWorld.newRequest "GET" (sampleClient.BaseURL ++ "/users") = none ∧
    (sendRequest readOnlyWorld sampleClient "GET" "/users" none).ret =
      .panic "runtime error: invalid memory address or nil pointer dereference" :=
  ⟨rfl, by decide, by decide, by decide, rfl, rfl⟩

/-- C23: `IsExpired` is monotone in time: for every token, nil included, and all
instants `t1 ≤ t2`, a token expired at `t1` is expired at `t2`, and a token
usable at `t2` was usable at `t1`. -/
theorem isExpired_mono (t : Option Token) (t1 t2 : Int) (hle : t1 ≤ t2) :
    (IsExpired t t1 = true → IsExpired t t2 = true) ∧
    (IsExpired t t2 = false → IsExpired t t1 = false) := by
  cases t with
  | none => simp [IsExpired]
  | some tok =>
    by_cases h : tok.AccessToken = ""
    · simp [IsExpired, h]
    · simp only [IsExpired, h, if_false, decide_eq_true_eq, decide_eq_false_iff_not, not_lt,
        gt_iff_lt]
      constructor <;> intro _ <;> omega

/-- Instance of C23: `cachedToken`, expired 59 minutes after its issue, is still
expired one minute later. -/
theorem isExpired_mono_witness :
    (59 * minute ≤ 60 * minute) ∧
    (IsExpired (some cachedToken) (59 * minute) = true →
      IsExpired (some cachedToken) (60 * minute) = true) ∧
    IsExpired (some cachedToken) (59 * minute) = true :=
  ⟨by decide, (isExpired_mono (some cachedToken) (59 * minute) (60 * minute) (by decide)).1,
    by decide⟩

end Chawk
